import Mathlib

/-
Shallow embedding of the core scraping engine in
src/toast-check-extractor/scripts/toast_extract.py, together with proofs
about the frozen claims.

Modelling conventions, used uniformly below:
- Python floats are modelled as rationals (ℚ).  Python's round(x, n) is
  modelled as round-half-up on ℚ (round (x * 10^n) / 10^n); all concrete
  inputs in theorems avoid exact ties, where banker's rounding could differ.
  Inside executable definitions, rational arithmetic is written with the
  kernel-reducible operations qAdd/qSub/qMul/qAbs/qLeB/qLtB (the library
  operations on ℚ are irreducible); the bridging lemmas qAdd_eq … round2_eq
  prove them equal to the library operations, so theorem statements use
  ordinary +, *, |·|, ≤ and round.
- Python strings are Lean Strings; str.strip() is pyStrip; \s in the
  regexes of the source is modelled by Char.isWhitespace; the character
  classes [0-9], [A-Za-z], [A-Za-z0-9] are ASCII, matching Python re on str
  for these explicit ranges.
- dict preserves insertion order in Python; dicts are modelled as
  association lists with overwrite-in-place insertion (dictInsert).
- Fallible code (try/except, re.search misses, missing keys) is modelled
  with Option.
- Python truthiness on strings ("" falsy), numbers (0 falsy) and lists
  ([] falsy) is modelled explicitly (optTruthy, optQTruthy, pyOr, pyOrQ).
-/

/-- Insertion into a Python dict modelled as an association list: an existing
key keeps its position and gets the new value, a new key is appended. -/
def dictInsert (k : String) (v : String) : List (String × String) → List (String × String)
  | [] => [(k, v)]
  | (k', v') :: rest => if k' = k then (k', v) :: rest else (k', v') :: dictInsert k v rest

/-- Lookup in an association list, the model of dict.get(k). -/
def dictGet (d : List (String × String)) (k : String) : Option String :=
  (d.find? (fun kv => kv.1 = k)).map (fun kv => kv.2)

/-- Occurrence of p as a contiguous sublist, the model of Python's
substring test `p in s`. -/
def subOccurs (p : List Char) : List Char → Bool
  | [] => p.isEmpty
  | c :: cs => p.isPrefixOf (c :: cs) || subOccurs p cs

/-- Model of Python `pat in s` on strings. -/
def containsSub (s pat : String) : Bool := subOccurs pat.data s.data

/-- Truthiness of an optional string: None and "" are falsy. -/
def optTruthy : Option String → Bool
  | none => false
  | some s => s ≠ ""

/-- Truthiness of an optional number: None and 0.0 are falsy. -/
def optQTruthy : Option ℚ → Bool
  | none => false
  | some q => q ≠ 0

/-- Truthiness of an optional integer: None and 0 are falsy. -/
def optZTruthy : Option ℤ → Bool
  | none => false
  | some z => z ≠ 0

/-- Python `a or b` on optional strings. -/
def pyOr (a b : Option String) : Option String := if optTruthy a then a else b

/-- Python `a or b` on optional floats. -/
def pyOrQ (a b : Option ℚ) : Option ℚ := if optQTruthy a then a else b

/-- Python `a or b` on optional ints. -/
def pyOrZ (a b : Option ℤ) : Option ℤ := if optZTruthy a then a else b

/-- Model of Python str.strip(): drop whitespace from both ends.  Written
over the character list so that concrete values reduce in the kernel. -/
def pyStrip (s : String) : String :=
  String.mk (((s.data.dropWhile Char.isWhitespace).reverse.dropWhile Char.isWhitespace).reverse)

/-- Model of Python str.lower() (ASCII case folding). -/
def strLower (s : String) : String := String.mk (s.data.map Char.toLower)

/-- Kernel-reducible addition on ℚ (Rat.add is irreducible). -/
def qAdd (a b : ℚ) : ℚ := mkRat (a.num * b.den + b.num * a.den) (a.den * b.den)

/-- Kernel-reducible negation on ℚ. -/
def qNeg (a : ℚ) : ℚ := mkRat (-a.num) a.den

/-- Kernel-reducible subtraction on ℚ. -/
def qSub (a b : ℚ) : ℚ := qAdd a (qNeg b)

/-- Kernel-reducible multiplication on ℚ. -/
def qMul (a b : ℚ) : ℚ := mkRat (a.num * b.num) (a.den * b.den)

/-- Kernel-reducible order test a ≤ b on ℚ, by cross multiplication. -/
def qLeB (a b : ℚ) : Bool := decide (a.num * (b.den : ℤ) ≤ b.num * (a.den : ℤ))

/-- Kernel-reducible order test a < b on ℚ, by cross multiplication. -/
def qLtB (a b : ℚ) : Bool := decide (a.num * (b.den : ℤ) < b.num * (a.den : ℤ))

/-- Kernel-reducible absolute value on ℚ. -/
def qAbs (a : ℚ) : ℚ := if qLtB a 0 then qNeg a else a

/-- Kernel-reducible round-half-up on ℚ (⌊x + 1/2⌋ via integer division). -/
def zRound (x : ℚ) : ℤ := (2 * x.num + (x.den : ℤ)) / (2 * (x.den : ℤ))

/-- Python round(x, 2) modelled as round-half-up to two decimals. -/
def round2 (q : ℚ) : ℚ := mkRat (zRound (qMul q 100)) 100

/-- Python round(x, 3) modelled as round-half-up to three decimals. -/
def round3 (q : ℚ) : ℚ := (round (q * 1000) : ℤ) / 1000

/-- Python sum() over a list of floats (left fold starting at 0). -/
def qSum (l : List ℚ) : ℚ := l.foldl qAdd 0

/-- Numeric value of a list of decimal digit characters. -/
def digitsToNat (cs : List Char) : ℕ := cs.foldl (fun a c => a * 10 + (c.toNat - 48)) 0

/-- Split a character list at every '.', the model of str.split('.') for
the dot-count analysis of float() syntax. -/
def splitDots : List Char → List (List Char)
  | [] => [[]]
  | '.' :: rest => [] :: splitDots rest
  | c :: rest =>
      match splitDots rest with
      | [] => [[c]]
      | part :: parts => (c :: part) :: parts

/-- Model of Python float() restricted to strings over the alphabet
{0-9, '.', '-'} (exactly what survives parse_decimal's cleaning):
an optional leading '-', then digits with at most one '.', at least one
digit overall, and no further '-'. -/
def pyFloat (s : String) : Option ℚ :=
  let neg := s.data.head? = some '-'
  let body := if neg then s.data.tail else s.data
  if body.contains '-' then none
  else
    match splitDots body with
    | [intPart] =>
        if intPart ≠ [] ∧ intPart.all Char.isDigit then
          some (mkRat (if neg then -(digitsToNat intPart : ℤ) else (digitsToNat intPart : ℤ)) 1)
        else none
    | [intPart, fracPart] =>
        if (intPart ++ fracPart) ≠ [] ∧ (intPart ++ fracPart).all Char.isDigit then
          let k := fracPart.length
          let n : ℤ := (digitsToNat intPart : ℤ) * 10 ^ k + (digitsToNat fracPart : ℤ)
          some (mkRat (if neg then -n else n) (10 ^ k))
        else none
    | _ => none

/-- Characters kept by parse_decimal's cleaning re.sub(r"[^0-9.-]", "", ·). -/
def isDecChar (c : Char) : Bool := c.isDigit || c = '.' || c = '-'

/-- The cleaned residue used by parse_decimal. -/
def cleanDecimal (s : String) : String := String.mk (s.data.filter isDecChar)

/-- Embedding of parse_decimal (toast_extract.py:2402).  The try/except
around float() becomes the Option result of pyFloat. -/
def parse_decimal (value : Option String) : Option ℚ :=
  match value with
  | none => none
  | some v =>
    let text := pyStrip v
    if text = "" then none
    else
      let cleaned := cleanDecimal text
      if cleaned = "" ∨ cleaned = "-" ∨ cleaned = "." ∨ cleaned = "-." then none
      else pyFloat cleaned

/-- One attempt of re.search(r"-?\d+", ·) at the current position: an
optional '-' followed by a maximal nonempty digit run. -/
def intMatchAt : List Char → Option (Bool × List Char)
  | [] => none
  | '-' :: rest =>
      let ds := rest.takeWhile Char.isDigit
      if ds ≠ [] then some (true, ds) else none
  | c :: cs =>
      let ds := (c :: cs).takeWhile Char.isDigit
      if ds ≠ [] then some (false, ds) else none

/-- Left-to-right scan of a regex attempt over every suffix, the model of
re.search. -/
def scanFor {α : Type} (f : List Char → Option α) : List Char → Option α
  | [] => f []
  | c :: cs => (f (c :: cs)).orElse (fun _ => scanFor f cs)

/-- Embedding of parse_int (toast_extract.py:2417). -/
def parse_int (value : Option String) : Option ℤ :=
  match value with
  | none => none
  | some v =>
    let text := pyStrip v
    if text = "" then none
    else
      (scanFor intMatchAt text.data).map
        (fun m => if m.1 then -(digitsToNat m.2 : ℤ) else (digitsToNat m.2 : ℤ))

/-- Collapse each whitespace run to a single space (the body of
re.sub(r"\s+", " ", ·)): whitespace is first mapped to ' ' and consecutive
spaces are then squeezed. -/
def squeezeSpaces : List Char → List Char
  | [] => []
  | [c] => [c]
  | a :: b :: rest =>
      if a = ' ' ∧ b = ' ' then squeezeSpaces (b :: rest)
      else a :: squeezeSpaces (b :: rest)

/-- Model of re.sub(r"\s+", " ", s).strip(). -/
def collapseWs (s : String) : String :=
  pyStrip (String.mk (squeezeSpaces (s.data.map (fun c => if c.isWhitespace then ' ' else c))))

/-- Model of re.sub(r"<[^>]+>", " ", ·): replace every tag-shaped span
('<', at least one non-'>' character, '>') by one space, scanning left to
right with a buffer of the characters since the last unmatched '<'.  The
buffer holds those characters reversed, '<' included; on '>' a buffer of
two or more characters is a match and becomes one space, a bare "<>" is
emitted literally. -/
def stripTagsGo : Option (List Char) → List Char → List Char
  | none, [] => []
  | some buf, [] => buf.reverse
  | none, c :: cs =>
      if c = '<' then stripTagsGo (some ['<']) cs
      else c :: stripTagsGo none cs
  | some buf, c :: cs =>
      if c = '>' then
        if 2 ≤ buf.length then ' ' :: stripTagsGo none cs
        else buf.reverse ++ '>' :: stripTagsGo none cs
      else stripTagsGo (some (c :: buf)) cs

/-- Model of html.unescape restricted to the five XML entities; the claims
never exercise the full HTML5 entity table, and on entity-free strings this
agrees with the source. -/
def unescapeBasic : List Char → List Char
  | [] => []
  | '&' :: 'a' :: 'm' :: 'p' :: ';' :: rest => '&' :: unescapeBasic rest
  | '&' :: 'l' :: 't' :: ';' :: rest => '<' :: unescapeBasic rest
  | '&' :: 'g' :: 't' :: ';' :: rest => '>' :: unescapeBasic rest
  | '&' :: 'q' :: 'u' :: 'o' :: 't' :: ';' :: rest => '"' :: unescapeBasic rest
  | '&' :: '#' :: '3' :: '9' :: ';' :: rest => '\'' :: unescapeBasic rest
  | c :: cs => c :: unescapeBasic cs

/-- Embedding of clean_text (toast_extract.py:513): strip tag-shaped spans,
unescape, collapse whitespace. -/
def clean_text (value : Option String) : String :=
  collapseWs (String.mk (unescapeBasic (stripTagsGo none (value.getD "").data)))

/-- Embedding of normalize_header (toast_extract.py:2596): lowercase, turn
runs outside [a-z0-9] into single spaces, collapse and strip. -/
def normalize_header (value : String) : String :=
  let text := strLower (pyStrip value)
  pyStrip (String.mk (squeezeSpaces (text.data.map
    (fun c => if ('a' ≤ c ∧ c ≤ 'z') ∨ c.isDigit then c else ' '))))

/-- Case-insensitive literal match of a (lowercase) pattern at the head of
the input; returns the rest of the input on success. -/
def matchCI : List Char → List Char → Option (List Char)
  | [], cs => some cs
  | _ :: _, [] => none
  | p :: ps, c :: cs => if c.toLower = p then matchCI ps cs else none

/-- Match \s*:\s* at the head of the input. -/
def matchWsColon (cs : List Char) : Option (List Char) :=
  match cs.dropWhile Char.isWhitespace with
  | ':' :: r2 => some (r2.dropWhile Char.isWhitespace)
  | _ => none

/-- Model of re.sub(r"^(?:opened by\s+server|server)\s*:\s*", "", ·, re.I):
try the "opened by server" branch, then the bare "server" branch; on a match
drop the matched span, otherwise return the input unchanged. -/
def dropServerLabel (s : String) : String :=
  let cs := s.data
  let branch1 : Option (List Char) :=
    match matchCI "opened by".data cs with
    | none => none
    | some r1 =>
      let r2 := r1.dropWhile Char.isWhitespace
      if r2 = r1 then none
      else
        match matchCI "server".data r2 with
        | none => none
        | some r3 => matchWsColon r3
  let attempt : Option (List Char) :=
    match branch1 with
    | some r => some r
    | none =>
      match matchCI "server".data cs with
      | none => none
      | some r1 => matchWsColon r1
  match attempt with
  | some rest => String.mk rest
  | none => s

/-- Model of str.strip(chars): drop characters of the set from both ends. -/
def stripEdges (set : List Char) (s : String) : String :=
  String.mk (((s.data.dropWhile (fun c => set.contains c)).reverse.dropWhile
    (fun c => set.contains c)).reverse)

/-- Model of str.split() with no argument: whitespace-delimited words, no
empties. -/
def wordsAux : List Char → List Char → List String
  | cur, [] => if cur.isEmpty then [] else [String.mk cur.reverse]
  | cur, c :: cs =>
    if c.isWhitespace then
      if cur.isEmpty then wordsAux [] cs else String.mk cur.reverse :: wordsAux [] cs
    else wordsAux (c :: cur) cs

/-- The word list of a string, the model of str.split(). -/
def wordsOf (s : String) : List String := wordsAux [] s.data

/-- Model of re.fullmatch(r"[A-Za-z ]+:", ·). -/
def fullmatchLetterColon (s : String) : Bool :=
  match s.data.reverse with
  | ':' :: rest => rest ≠ [] && rest.all (fun c => c.isAlpha || c = ' ')
  | _ => false

/-- The server text after the cleanup steps of sanitize_server_value
(whitespace collapse, leading-punctuation strip, label strip, edge strip);
this is the "cleaned text" the paren check inspects. -/
def serverCleanedText (s : String) : String :=
  let text := collapseWs s
  let text := String.mk (text.data.dropWhile (fun c => !c.isAlphanum))
  let text := dropServerLabel text
  stripEdges [' ', ':', '-'] text

/-- Embedding of sanitize_server_value (toast_extract.py:2543). -/
def sanitize_server_value (value : Option String) : Option String :=
  match value with
  | none => none
  | some v =>
    if collapseWs v = "" then none
    else
      let text := serverCleanedText v
      if text = "" then none
      else if containsSub (strLower text) "station" || containsSub (strLower text) "device" then none
      else if text.data.contains '(' && text.data.contains ')' then none
      else if strLower text = "none" ∨ strLower text = "null" ∨ strLower text = "n/a" then none
      else if containsSub (strLower text) "opened by server" then none
      else if fullmatchLetterColon text then none
      else if !(text.data.any Char.isAlphanum) then none
      else
        let words := wordsOf text
        if words.length ≥ 4 ∧ words.length % 2 = 0 ∧
           words.take (words.length / 2) = words.drop (words.length / 2) then
          some (String.intercalate " " (words.take (words.length / 2)))
        else some text

/-- Embedding of normalize_payment_type (toast_extract.py:2428). -/
def normalize_payment_type (value : Option String) : Option String :=
  let text := clean_text value
  if text = "" then none
  else
    let lowered := strLower text
    if containsSub lowered "gift" && containsSub lowered "card" then some "Gift Card"
    else if containsSub lowered "credit" then some "credit"
    else if containsSub lowered "debit" then some "debit"
    else if containsSub lowered "cash" then some "cash"
    else some text

/-- A DOM-extracted table: header strings and row cells, as produced by the
page.evaluate payload of extract_detail_payload. -/
structure RawTable where
  headers : List String
  rows : List (List String)
deriving DecidableEq

/-- A parsed line item (source dict built in extract_items_from_tables). -/
structure LineItem where
  item_name : Option String
  modifiers : Option String
  quantity : Option ℚ
  unit_price : Option ℚ
  discount : ℚ
  line_total : Option ℚ
  line_tax : Option ℚ
  line_total_with_tax : Option ℚ
  voided : Bool
  reason : Option String
deriving DecidableEq

/-- A parsed payment row (source dict built in extract_payments_from_tables). -/
structure Payment where
  payment_type : Option String
  payment_date : Option String
  amount : Option ℚ
  tip : Option ℚ
  gratuity : Option ℚ
  total : Option ℚ
  refund : Option ℚ
  status : Option String
  card_type : Option String
  card_last_4 : Option String
deriving DecidableEq

/-- A parsed discount row (source dict built in extract_discounts_from_tables). -/
structure DiscountRow where
  name : Option String
  amount : ℚ
  applied_date : Option String
  approver : Option String
  reason : Option String
  comment : Option String
deriving DecidableEq

/-- mapped = {headers[i]: row[i] for i in range(min(len(headers), len(row)))}. -/
def buildMapped (headers row : List String) : List (String × String) :=
  (headers.zip row).foldl (fun d kv => dictInsert kv.1 kv.2 d) []

/-- Embedding of pick_row_value (toast_extract.py:2602): first candidate
whose normalized needle equals or occurs in a normalized key with a
non-blank value. -/
def pick_row_value (mapped : List (String × String)) (candidates : List String) : Option String :=
  candidates.findSome? fun candidate =>
    let needle := normalize_header candidate
    mapped.findSome? fun kv =>
      let key_text := normalize_header kv.1
      if (needle = key_text ∨ containsSub key_text needle = true) ∧ pyStrip kv.2 ≠ "" then
        some kv.2
      else none

/-- Model of the `next((v for k, v in mapped.items() if p k), None)`
fallbacks used beside pick_row_value. -/
def firstValueWith (p : String → Bool) (mapped : List (String × String)) : Option String :=
  mapped.findSome? fun kv => if p kv.1 then some kv.2 else none

/-- One line item from one mapped row (body of the loop in
extract_items_from_tables, toast_extract.py:2600). -/
def itemOfRow (headers : List String) (row : List String) : LineItem :=
  let mapped := buildMapped headers row
  let item_name := pyOr (pick_row_value mapped ["menu item", "item", "item name", "menu"])
      (firstValueWith (fun k => containsSub k "item") mapped)
  let modifiers := pick_row_value mapped ["modifiers", "modifier"]
  let quantity := parse_decimal (pyOr (pick_row_value mapped ["qty", "quantity", "item qty"])
      (firstValueWith (fun k => containsSub k "qty") mapped))
  let unit_price := parse_decimal (pyOr (pick_row_value mapped ["price", "unit price", "avg price"])
      (firstValueWith (fun k => containsSub k "price") mapped))
  let line_discount := (parse_decimal (pyOr (pick_row_value mapped ["discount", "discount amount"])
      (firstValueWith (fun k => k = "discount") mapped))).getD 0
  let line_total_net := parse_decimal (pyOr (pick_row_value mapped ["net", "line total", "subtotal"])
      (firstValueWith (fun k => k = "net") mapped))
  let line_total_net :=
    if line_total_net = none then
      match quantity, unit_price with
      | some q, some u => some (round2 (qSub (qMul q u) line_discount))
      | _, _ => none
    else line_total_net
  let line_tax := parse_decimal (pyOr (pick_row_value mapped ["tax", "item tax"])
      (firstValueWith (fun k => containsSub k "tax") mapped))
  let line_total_with_tax := parse_decimal (pyOr
      (pick_row_value mapped ["total", "amount", "line total with tax", "gross amount"])
      (firstValueWith (fun k => containsSub k "total" || containsSub k "amount") mapped))
  let line_total_with_tax :=
    if line_total_with_tax = none then
      match line_total_net, line_tax with
      | some n, some t => some (round2 (qAdd n t))
      | _, _ => none
    else line_total_with_tax
  let line_total_with_tax := if line_total_with_tax = none then line_total_net else line_total_with_tax
  let voided_value := pick_row_value mapped ["voided", "voided?", "void"]
  let reason_value := pick_row_value mapped ["reason", "void reason"]
  let voided := decide (strLower (pyStrip (voided_value.getD "")) ∈ (["true", "yes", "1"] : List String))
  { item_name := item_name, modifiers := modifiers, quantity := quantity,
    unit_price := unit_price, discount := line_discount, line_total := line_total_net,
    line_tax := line_tax, line_total_with_tax := line_total_with_tax,
    voided := voided, reason := reason_value }

/-- Embedding of extract_items_from_tables (toast_extract.py:2600): the first
table whose headers carry an item/menu token and a qty/quantity token and
whose rows keep a truthy item_name wins. -/
def extract_items_from_tables : List RawTable → List LineItem
  | [] => []
  | table :: rest =>
    let headers := table.headers.map normalize_header
    if headers = [] then extract_items_from_tables rest
    else
      let has_item := headers.any (fun h => containsSub h "item" || containsSub h "menu")
      let has_qty := headers.any (fun h => containsSub h "qty" || containsSub h "quantity")
      if !(has_item && has_qty) then extract_items_from_tables rest
      else
        let items := table.rows.map (itemOfRow headers)
        let filtered := items.filter (fun it => optTruthy it.item_name)
        if filtered ≠ [] then filtered else extract_items_from_tables rest

/-- One discount row from one mapped row (loop body of
extract_discounts_from_tables, toast_extract.py:2676). -/
def discountOfRow (headers : List String) (row : List String) : DiscountRow :=
  let mapped := buildMapped headers row
  { name := pick_row_value mapped ["name"],
    amount := (parse_decimal (pick_row_value mapped ["amount"])).getD 0,
    applied_date := pick_row_value mapped ["applied date", "date applied"],
    approver := pick_row_value mapped ["approver", "approved by"],
    reason := pick_row_value mapped ["reason"],
    comment := pick_row_value mapped ["comment", "notes", "note"] }

/-- Embedding of extract_discounts_from_tables (toast_extract.py:2676).  The
source filter keeps rows with a truthy name or a non-None amount; amount was
already defaulted to 0.0 on every row, so the filter keeps every row. -/
def extract_discounts_from_tables : List RawTable → List DiscountRow
  | [] => []
  | table :: rest =>
    let headers := table.headers.map normalize_header
    if headers = [] then extract_discounts_from_tables rest
    else
      let has_name := headers.any (fun h => h = "name" || containsSub h "name")
      let has_amount := headers.any (fun h => containsSub h "amount")
      let has_applied := headers.any (fun h => containsSub h "applied" && containsSub h "date")
      if !(has_name && has_amount && has_applied) then extract_discounts_from_tables rest
      else
        let discounts := table.rows.map (discountOfRow headers)
        if discounts ≠ [] then discounts else extract_discounts_from_tables rest

/-- Four leading digits at the current position (the capture \d{4}). -/
def fourDigitsAt : List Char → Option String
  | a :: b :: c :: d :: _ =>
      if a.isDigit && b.isDigit && c.isDigit && d.isDigit then
        some (String.mk [a, b, c, d])
      else none
  | _ => none

/-- One attempt of re.search(r"(?:\*{4}|x{4}|ending in)\s*(\d{4})", ·, re.I)
at the current position. -/
def cardTailAt (cs : List Char) : Option String :=
  let afterMarker :=
    match matchCI "****".data cs with
    | some r => some r
    | none =>
      match matchCI "xxxx".data cs with
      | some r => some r
      | none => matchCI "ending in".data cs
  match afterMarker with
  | none => none
  | some rest => fourDigitsAt (rest.dropWhile Char.isWhitespace)

/-- Word characters for the \b boundary of Python re. -/
def isWordChar (c : Char) : Bool := c.isAlphanum || c = '_'

/-- One attempt of re.search(r"\b(\d{4})\b", ·) at the current position,
given the previous character. -/
def wordFourAt (prev : Option Char) : List Char → Option String
  | a :: b :: c :: d :: rest =>
      if (match prev with | none => true | some p => !isWordChar p) &&
         (a.isDigit && b.isDigit && c.isDigit && d.isDigit) &&
         (match rest with | [] => true | e :: _ => !isWordChar e) then
        some (String.mk [a, b, c, d])
      else none
  | _ => none

/-- Scan of re.search(r"\b(\d{4})\b", ·) over the whole string. -/
def scanWordFour : Option Char → List Char → Option String
  | _, [] => none
  | prev, c :: cs =>
      match wordFourAt prev (c :: cs) with
      | some r => some r
      | none => scanWordFour (some c) cs

/-- One attempt of re.search(r"(?:credit|debit)\s*:\s*([A-Za-z]+)", ·, re.I)
at the current position. -/
def cardTypeAt (cs : List Char) : Option String :=
  let afterKw :=
    match matchCI "credit".data cs with
    | some r => some r
    | none => matchCI "debit".data cs
  match afterKw with
  | none => none
  | some rest =>
    match rest.dropWhile Char.isWhitespace with
    | ':' :: r2 =>
      let letters := (r2.dropWhile Char.isWhitespace).takeWhile Char.isAlpha
      if letters ≠ [] then some (String.mk letters) else none
    | _ => none

/-- One payment row from one mapped row (loop body of
extract_payments_from_tables, toast_extract.py:2710). -/
def paymentOfRow (headers : List String) (row : List String) : Payment :=
  let mapped := buildMapped headers row
  let raw_payment_type := pyOr (pick_row_value mapped ["payment", "payment method", "method", "type"])
      (firstValueWith (fun k => containsSub k "payment" || containsSub k "method") mapped)
  let payment_type := normalize_payment_type raw_payment_type
  let card_type := pyOr (pick_row_value mapped ["card type"])
      (firstValueWith (fun k => containsSub k "card" && !(containsSub k "last")) mapped)
  let card_last_4 := pick_row_value mapped ["card last 4", "last 4"]
  let card_last_4 :=
    if !optTruthy card_last_4 && optTruthy payment_type then
      match scanFor cardTailAt (payment_type.getD "").data with
      | some m => some m
      | none => card_last_4
    else card_last_4
  let card_last_4 :=
    if !optTruthy card_last_4 && optTruthy payment_type then
      match scanWordFour none (payment_type.getD "").data with
      | some m => some m
      | none => card_last_4
    else card_last_4
  let card_type :=
    if !optTruthy card_type && optTruthy payment_type then
      match scanFor cardTypeAt (payment_type.getD "").data with
      | some m => some m
      | none => card_type
    else card_type
  let isGift : Bool := match payment_type with
    | some s => decide (strLower s = "gift card")
    | none => false
  let card_type := if isGift then none else card_type
  let card_last_4 := if isGift then none else card_last_4
  { payment_type := payment_type,
    payment_date := pick_row_value mapped ["date", "paid at", "payment date"],
    amount := parse_decimal (pyOr (pyOr (pick_row_value mapped ["amount", "paid", "charge amount"])
        (dictGet mapped "total"))
        (firstValueWith (fun k => containsSub k "amount" || containsSub k "total") mapped)),
    tip := parse_decimal (pyOr (pick_row_value mapped ["tip"])
        (firstValueWith (fun k => containsSub k "tip") mapped)),
    gratuity := parse_decimal (pyOr (pick_row_value mapped ["gratuity", "service charge"])
        (firstValueWith (fun k => containsSub k "gratuity") mapped)),
    total := parse_decimal (pyOr (pick_row_value mapped ["total"])
        (firstValueWith (fun k => containsSub k "total") mapped)),
    refund := parse_decimal (pyOr (pick_row_value mapped ["refund"])
        (firstValueWith (fun k => containsSub k "refund") mapped)),
    status := pick_row_value mapped ["status"],
    card_type := card_type,
    card_last_4 := card_last_4 }

/-- Embedding of extract_payments_from_tables (toast_extract.py:2710). -/
def extract_payments_from_tables : List RawTable → List Payment
  | [] => []
  | table :: rest =>
    let headers := table.headers.map normalize_header
    if headers = [] then extract_payments_from_tables rest
    else
      let has_payment := headers.any (fun h =>
        containsSub h "payment" || containsSub h "method" || containsSub h "card")
      let has_amount := headers.any (fun h => containsSub h "amount" || containsSub h "total")
      if !(has_payment && has_amount) then extract_payments_from_tables rest
      else
        let payments := table.rows.map (paymentOfRow headers)
        let filtered := payments.filter (fun p => optTruthy p.payment_type || p.amount.isSome)
        if filtered ≠ [] then filtered else extract_payments_from_tables rest

/-- Embedding of pick_value (toast_extract.py:2519): outer loop over pairs,
inner loop over candidates, candidate occurring in the lowercased key and a
truthy value. -/
def pick_value (pairs : List (String × String)) (candidates : List String) : Option String :=
  pairs.findSome? fun kv =>
    let normalized := strLower kv.1
    candidates.findSome? fun candidate =>
      if containsSub normalized candidate ∧ kv.2 ≠ "" then some kv.2 else none

/-- Embedding of pick_metadata_value (toast_extract.py:2529): lowercased-key
dict, outer loop over candidates, returns the stripped value. -/
def pick_metadata_value (metadata : List (String × String)) (candidates : List String) :
    Option String :=
  if metadata = [] then none
  else
    let lowered := metadata.foldl (fun acc kv => dictInsert (strLower kv.1) kv.2 acc) []
    candidates.findSome? fun candidate =>
      let needle := strLower candidate
      lowered.findSome? fun kv =>
        if containsSub kv.1 needle then
          if pyStrip kv.2 ≠ "" then some (pyStrip kv.2) else none
        else none

/-- Embedding of normalize_metadata_fields (toast_extract.py:482).  The
legacy branch flattening a nested metadata.columns dict is vacuous here:
metadata values are modelled as strings, never nested tables. -/
def normalize_metadata_fields (metadata : List (String × String)) : List (String × String) :=
  metadata.foldl (fun cleaned kv =>
    let key_text := pyStrip kv.1
    if key_text = "" then cleaned
    else if strLower key_text ∈ (["receipt", "detail_url", "columns", "raw_cells"] : List String) then
      cleaned
    else dictInsert key_text kv.2 cleaned) []

/-- A validation failure, modelling the formatted strings appended by
validate_detail_payload by their numeric content. -/
inductive ValidationError
  | total_mismatch (expected actual : ℚ)
  | line_total_mismatch (idx : ℕ) (expected actual : ℚ)
deriving DecidableEq

/-- Embedding of validate_detail_payload (toast_extract.py:2788).  The
source re-reads each monetary field through parse_decimal; on the float (or
None) values stored in mapped that is the identity, so the fields are taken
directly. -/
def validate_detail_payload (subtotal tax tip gratuity total : Option ℚ) (discount : ℚ)
    (items : List LineItem) : List ValidationError :=
  let totalErrs : List ValidationError :=
    match subtotal, tax, tip, gratuity, total with
    | some s, some tx, some tp, some g, some t =>
      let expected := round2 (qSub (qAdd (qAdd (qAdd s tx) tp) g) discount)
      if qLtB (mkRat 5 100) (qAbs (qSub expected t)) then
        [ValidationError.total_mismatch expected t]
      else []
    | _, _, _, _, _ => []
  let lineErrs : List ValidationError :=
    items.enum.filterMap fun p =>
      match p.2.quantity, p.2.unit_price, p.2.line_total with
      | some q, some u, some L =>
        let expected := round2 (qSub (qMul q u) p.2.discount)
        if qLtB (mkRat 5 100) (qAbs (qSub expected L)) then
          some (ValidationError.line_total_mismatch p.1 expected L)
        else none
      | _, _, _ => none
  totalErrs ++ lineErrs

/-- The summary currency spans of the DOM payload (payload.summary). -/
structure SummaryFields where
  subtotal : Option String
  tax : Option String
  tip : Option String
  gratuity : Option String
  discount : Option String
  total : Option String
deriving DecidableEq

/-- The extracted summary details of the DOM payload (payload.summaryDetails). -/
structure SummaryDetails where
  time_opened : Option String
  guest_count : Option String
  server : Option String
  table : Option String
  revenue_center : Option String
deriving DecidableEq

/-- The regex probes of map_detail_payload over payload.bodyText, modelled
as inputs: field f holds the result of regex_pick(body_text, patterns_f) —
the stripped, non-blank group-1 text of the first matching pattern, or None.
An empty bodyText yields all None (none of those patterns matches ""). -/
structure BodyProbes where
  check_number : Option String
  time_opened : Option String
  guest_count : Option String
  server : Option String
  table : Option String
  revenue_center : Option String
  subtotal : Option String
  tax : Option String
  tip : Option String
  gratuity : Option String
  total : Option String
  created_by : Option String
deriving DecidableEq

/-- The all-None probe record, the value taken on an empty bodyText. -/
def noProbes : BodyProbes :=
  ⟨none, none, none, none, none, none, none, none, none, none, none, none⟩

/-- The DOM-extracted raw payload consumed by map_detail_payload. -/
structure DetailPayload where
  pairs : List (String × String)
  tables : List RawTable
  summary : SummaryFields
  summaryDetails : SummaryDetails
  probes : BodyProbes
deriving DecidableEq

/-- A parsed check detail (the `mapped` dict of map_detail_payload).  The
derived turnover_time field (compute_turnover_minutes over the flexible
datetime formats) is not modelled: no claim mentions it and nothing in the
parser reads it back. -/
structure CheckDetail where
  check_number : Option ℤ
  time_opened : Option String
  guest_count : Option ℤ
  server : Option String
  table : Option String
  discount : ℚ
  discounts : List DiscountRow
  subtotal : Option ℚ
  tax : Option ℚ
  tip : Option ℚ
  gratuity : Option ℚ
  total : Option ℚ
  revenue_center : Option String
  items : List LineItem
  payments : List Payment
  time_closed : Option String
  validation_errors : List ValidationError
  complete : Bool
deriving DecidableEq

/-- The direct sources for tax in map_detail_payload (toast_extract.py:
2972-2975): summary span, then label/value pairs or body probe, then
metadata. -/
def tax_direct (payload : DetailPayload) (metadata : List (String × String)) : Option ℚ :=
  let tax := parse_decimal payload.summary.tax
  let tax := if tax = none then
      pyOrQ (parse_decimal (pick_value payload.pairs ["tax"])) (parse_decimal payload.probes.tax)
    else tax
  if tax = none then parse_decimal (pick_metadata_value metadata ["tax"]) else tax

/-- net_sum of the item-based tax derivation (toast_extract.py:2985):
sum((item.get("line_total") or 0.0) for item in items). -/
def items_net_sum (items : List LineItem) : ℚ :=
  qSum (items.map (fun it => it.line_total.getD 0))

/-- gross_sum of the item-based tax derivation (toast_extract.py:2986):
sum((item.get("line_total_with_tax") or item.get("line_total") or 0.0)). -/
def items_gross_sum (items : List LineItem) : ℚ :=
  qSum (items.map (fun it =>
    if optQTruthy it.line_total_with_tax then it.line_total_with_tax.getD 0
    else if optQTruthy it.line_total then it.line_total.getD 0
    else 0))

/-- The final clamp of the tax fusion (toast_extract.py:2990):
if tax is not None and abs(tax) < 0.005, set it to 0. -/
def clamp_small_tax : Option ℚ → Option ℚ
  | some v => if qLtB (qAbs v) (mkRat 5 1000) then some 0 else some v
  | none => none

/-- The tax fusion of map_detail_payload (toast_extract.py:2976-2991):
derive tax from totals, or from item gross − net, when no direct source
produced it — each derivation kept only when the computed value is ≥ 0 —
then clamp |tax| < 0.005 to 0. -/
def fuse_tax (direct : Option ℚ) (subtotal total tip gratuity : Option ℚ)
    (items : List LineItem) : Option ℚ :=
  let tax := direct
  let tax :=
    if tax = none then
      match subtotal, total with
      | some s, some t =>
        let computed := round2 (qSub (qSub (qSub t s) (tip.getD 0)) (gratuity.getD 0))
        if qLeB 0 computed then some computed else none
      | _, _ => none
    else tax
  let tax :=
    if tax = none ∧ items ≠ [] then
      let computed := round2 (qSub (items_gross_sum items) (items_net_sum items))
      if qLeB 0 computed then some computed else none
    else tax
  clamp_small_tax tax

/-- The card backfill into the first payment (toast_extract.py:2846-2853):
fill missing card_type / card_last_4 on the first payment from the fused
page-level values, unless the first payment is a gift card. -/
def fill_first_payment_cards (card_type card_last_4 : Option String) :
    List Payment → List Payment
  | [] => []
  | first :: rest =>
    let first_type := strLower (pyStrip (first.payment_type.getD ""))
    let allow_card_fill := first_type ≠ "gift card"
    let first := if allow_card_fill ∧ !optTruthy first.card_type ∧ optTruthy card_type then
        { first with card_type := card_type }
      else first
    let first := if allow_card_fill ∧ !optTruthy first.card_last_4 ∧ optTruthy card_last_4 then
        { first with card_last_4 := card_last_4 }
      else first
    first :: rest

/-- Embedding of map_detail_payload (toast_extract.py:2822-3059) up to but
not including the final validation / completeness section: field fusion
over the precedence chains, card backfill into the first payment, server
sanitization and metadata fixups.  The initial mapped dict carries
complete = false and no validation errors. -/
def map_detail_core (payload : DetailPayload) (metadata_fields : List (String × String)) :
    CheckDetail :=
  let pairs := payload.pairs
  let tables := payload.tables
  let summary := payload.summary
  let summaryDetails := payload.summaryDetails
  let metadata := normalize_metadata_fields metadata_fields

  let payments := extract_payments_from_tables tables
  let items := extract_items_from_tables tables
  let discounts_table := extract_discounts_from_tables tables

  let card_type := pick_value pairs ["card type", "card"]
  let card_last_4 := pick_value pairs ["last 4", "last4", "last four"]
  let card_last_4 := match payments with
    | [] => card_last_4
    | first :: _ => if !optTruthy card_last_4 then first.card_last_4 else card_last_4
  let card_type := match payments with
    | [] => card_type
    | first :: _ => if !optTruthy card_type then first.card_type else card_type
  let card_type := if !optTruthy card_type then
      pick_metadata_value metadata ["card type", "type", "payment"]
    else card_type
  let card_last_4 := if !optTruthy card_last_4 then
      pick_metadata_value metadata ["last 4", "last4"]
    else card_last_4
  let payments := fill_first_payment_cards card_type card_last_4 payments

  let regex_check_number := parse_int payload.probes.check_number
  let regex_time_opened := payload.probes.time_opened
  let regex_guest_count := parse_int payload.probes.guest_count
  let regex_server := payload.probes.server
  let regex_table := payload.probes.table
  let regex_revenue_center := payload.probes.revenue_center
  let regex_subtotal := parse_decimal payload.probes.subtotal
  let regex_tip := parse_decimal payload.probes.tip
  let regex_gratuity := parse_decimal payload.probes.gratuity
  let regex_total := parse_decimal payload.probes.total

  let subtotal := parse_decimal summary.subtotal
  let subtotal := if subtotal = none then
      pyOrQ (parse_decimal (pick_value pairs ["subtotal"])) regex_subtotal
    else subtotal
  let subtotal := if subtotal = none then
      parse_decimal (pick_metadata_value metadata ["subtotal", "amount", "net sales", "pre-tax"])
    else subtotal

  let tip := parse_decimal summary.tip
  let tip := if tip = none ∧ payments ≠ [] then
      let tip_numbers := payments.filterMap Payment.tip
      if tip_numbers ≠ [] then some (round2 (qSum tip_numbers)) else none
    else tip
  let tip := if tip = none then
      pyOrQ (parse_decimal (pick_value pairs ["tip"])) regex_tip
    else tip
  let tip := if tip = none then parse_decimal (pick_metadata_value metadata ["tip"]) else tip

  let gratuity := parse_decimal summary.gratuity
  let gratuity := if gratuity = none ∧ payments ≠ [] then
      let gratuity_numbers := payments.filterMap Payment.gratuity
      if gratuity_numbers ≠ [] then some (round2 (qSum gratuity_numbers)) else none
    else gratuity
  let gratuity := if gratuity = none then
      pyOrQ (parse_decimal (pick_value pairs ["gratuity"])) regex_gratuity
    else gratuity
  let gratuity := if gratuity = none then
      parse_decimal (pick_metadata_value metadata ["gratuity", "service charge"])
    else gratuity

  let total := parse_decimal summary.total
  let total := if total = none then
      pyOrQ (parse_decimal (pick_value pairs ["total"])) regex_total
    else total
  let total := if total = none then parse_decimal (pick_metadata_value metadata ["total"]) else total
  let total := if total = none ∧ payments ≠ [] then
      let payment_total_numbers := payments.filterMap Payment.total
      if payment_total_numbers ≠ [] then some (round2 (qSum payment_total_numbers)) else none
    else total
  let total := if total = none ∧ payments ≠ [] then
      let amount_numbers := payments.filterMap Payment.amount
      if amount_numbers ≠ [] then
        some (round2 (qAdd (qAdd (qSum amount_numbers) (tip.getD 0)) (gratuity.getD 0)))
      else none
    else total

  let discount := parse_decimal summary.discount
  let discount := if discount = none then parse_decimal (pick_value pairs ["discount"]) else discount
  let discount := if discount = none then
      parse_decimal (pick_metadata_value metadata ["discount"])
    else discount
  let discount : ℚ := discount.getD 0

  let tax := fuse_tax (tax_direct payload metadata) subtotal total tip gratuity items

  let check_number := pyOrZ (parse_int (pick_value pairs ["check #", "check number"]))
      regex_check_number
  let time_opened := pyOr (pyOr (pick_value pairs ["opened", "time opened", "open time"])
      summaryDetails.time_opened) regex_time_opened
  let guest_count := pyOrZ (pyOrZ (parse_int (pick_value pairs ["guest", "covers"]))
      (parse_int summaryDetails.guest_count)) regex_guest_count
  let server := pyOr (pyOr (pick_value pairs ["server", "employee"]) summaryDetails.server)
      regex_server
  let table := pyOr (pyOr (pick_value pairs ["table", "tab"]) summaryDetails.table) regex_table
  let revenue_center := pyOr (pyOr (pick_value pairs ["revenue center", "location"])
      summaryDetails.revenue_center) regex_revenue_center

  let check_number := if check_number = none then
      parse_int (pick_metadata_value metadata ["order #", "check #"])
    else check_number
  let time_opened := if !optTruthy time_opened then
      pick_metadata_value metadata ["order date", "opened"]
    else time_opened
  let guest_count := if guest_count = none then
      parse_int (pick_metadata_value metadata ["guest"])
    else guest_count
  let server := sanitize_server_value server
  let server := if !optTruthy server then
      sanitize_server_value (pick_metadata_value metadata ["server", "opened by"])
    else server
  let server := if !optTruthy server then sanitize_server_value payload.probes.created_by
    else server
  let table := if !optTruthy table then pick_metadata_value metadata ["table"] else table
  let revenue_center := if !optTruthy revenue_center then
      pick_metadata_value metadata ["revenue center", "dining area"]
    else revenue_center

  let payment_dates := payments.filterMap
      (fun p => if optTruthy p.payment_date then p.payment_date else none)
  let time_closed := payment_dates.head?
  let time_closed := if !optTruthy time_closed then
      pick_value pairs ["payment date", "closed", "closed at"]
    else time_closed
  let time_closed := if !optTruthy time_closed then
      pick_metadata_value metadata ["payment date", "closed", "closed at"]
    else time_closed
  let time_closed := if !optTruthy time_closed then
      match pick_metadata_value metadata ["payment date", "closed", "closed at"] with
      | some t => some t
      | none => time_closed
    else time_closed

  { check_number := check_number, time_opened := time_opened, guest_count := guest_count,
    server := server, table := table, discount := discount, discounts := discounts_table,
    subtotal := subtotal, tax := tax, tip := tip, gratuity := gratuity, total := total,
    revenue_center := revenue_center, items := items, payments := payments,
    time_closed := time_closed, validation_errors := [], complete := false }

/-- The final section of map_detail_payload (toast_extract.py:3061-3087):
has_financial / has_identity, validation, and the complete flag. -/
def map_detail_finalize (m : CheckDetail) : CheckDetail :=
  let has_financial := m.total.isSome || m.payments.any (fun p => p.amount.isSome)
  let has_identity := m.check_number.isSome || optTruthy m.time_opened || optTruthy m.server
  let validation_errors :=
    validate_detail_payload m.subtotal m.tax m.tip m.gratuity m.total m.discount m.items
  let has_payments_or_zero_total := !m.payments.isEmpty ||
    (match m.total with
     | some t => qLtB (qAbs t) (mkRat 5 1000)
     | none => false)
  { m with validation_errors := validation_errors,
           complete := !m.items.isEmpty && has_payments_or_zero_total && has_financial &&
             has_identity && validation_errors.isEmpty }

/-- Embedding of map_detail_payload (toast_extract.py:2822): field fusion
followed by validation and the completeness flag. -/
def map_detail_payload (payload : DetailPayload) (metadata_fields : List (String × String)) :
    CheckDetail :=
  map_detail_finalize (map_detail_core payload metadata_fields)

/-- The canonical Order Details report URL (toast_extract.py:26). -/
def ORDER_DETAILS_URL : String :=
  "https://www.toasttab.com/restaurants/admin/reports/home#sales-order-details"

/-- The mutable throttle-controller state of process_details
(toast_extract.py:3269-3271). -/
structure ThrottleState where
  throttle_events : ℕ
  throttle_multiplier : ℚ
  throttle_until : ℚ
deriving DecidableEq

/-- Initial throttle state: no events, multiplier 1.0, throttle_until 0.0. -/
def initThrottleState : ThrottleState := ⟨0, 1, 0⟩

/-- The error classifier of run_one (toast_extract.py:3342): an error counts
as throttle / auth-block when its message contains AUTH_BLOCKED, status=429
or status=403. -/
def is_throttle_error (message : String) : Bool :=
  containsSub message "AUTH_BLOCKED" || containsSub message "status=429" ||
    containsSub message "status=403"

/-- The throttle update on a classified error (toast_extract.py:3343-3348);
now is the event-loop time and jitter models jitter_ms(0, 1500) / 1000. -/
def throttleBackoff (s : ThrottleState) (now jitter : ℚ) : ThrottleState :=
  let throttle_events := s.throttle_events + 1
  let throttle_multiplier := min 8 (max (3/2) (s.throttle_multiplier * (165/100)))
  let cooldown_base : ℚ := min 120 ((2 : ℚ) ^ min throttle_events 7)
  let cooldown := cooldown_base + jitter
  { throttle_events := throttle_events, throttle_multiplier := throttle_multiplier,
    throttle_until := max s.throttle_until (now + cooldown) }

/-- The multiplier relaxation after a successful detail extraction
(toast_extract.py:3313-3315). -/
def throttleRelax (s : ThrottleState) : ThrottleState :=
  if 1 < s.throttle_multiplier then
    { s with throttle_multiplier := max 1 (round3 (s.throttle_multiplier * (9/10))) }
  else s

/-- One observable outcome of run_one as seen by the throttle controller. -/
inductive RunOutcome
  | success
  | failure (message : String) (now jitter : ℚ)

/-- The throttle-state transition for one run_one outcome: relax on
success, back off on an error classified as throttle / auth-block, no
change otherwise. -/
def throttleStep (s : ThrottleState) : RunOutcome → ThrottleState
  | RunOutcome.success => throttleRelax s
  | RunOutcome.failure message now jitter =>
      if is_throttle_error message then throttleBackoff s now jitter else s

/-- The throttle state after a sequence of run_one outcomes. -/
def throttleRun (outcomes : List RunOutcome) : ThrottleState :=
  outcomes.foldl throttleStep initThrottleState

/-- A stored check record as serialized by save_state; only the sort key
payment_id is interpreted, the remaining JSON content is opaque. -/
structure StoredRecord where
  payment_id : String
  content : String
deriving DecidableEq

/-- A filesystem operation issued by save_state. -/
inductive FsOp
  | mkdirParents (dir : String)
  | writeText (path : String) (payload : List StoredRecord)
  | fsyncFile (path : String)
  | renameOver (src dst : String)
deriving DecidableEq

/-- The serialized array of save_state (toast_extract.py:445):
sorted(state.values(), key=lambda row: row["payment_id"]); dict values in
insertion order, Python's stable sort modelled by mergeSort. -/
def save_state_payload (state : List (String × StoredRecord)) : List StoredRecord :=
  (state.map Prod.snd).mergeSort (fun a b => decide (a.payment_id ≤ b.payment_id))

/-- Embedding of save_state (toast_extract.py:442-448) as the sequence of
filesystem operations it performs: mkdir(parents), write the serialized
payload to the sibling path suffixed ".tmp", rename over the target.  The
parent directory is passed as an argument (Path.parent is not modelled).
The source performs no fsync. -/
def save_state_ops (parent path : String) (state : List (String × StoredRecord)) : List FsOp :=
  [FsOp.mkdirParents parent,
   FsOp.writeText (path ++ ".tmp") (save_state_payload state),
   FsOp.renameOver (path ++ ".tmp") path]

/-- Whether an operation trace contains an fsync. -/
def hasFsync (ops : List FsOp) : Bool :=
  ops.any fun op => match op with
    | FsOp.fsyncFile _ => true
    | _ => false

/-- A pagination summary "Showing X through Y of Z"; the source key "end"
is called stop here (end is a reserved word). -/
structure PaginationSummary where
  start : ℕ
  stop : ℕ
  total : ℕ
deriving DecidableEq

/-- One raw order block as returned by extract_order_detail_blocks. -/
structure CrawlRow where
  payment_id : Option String
  metadata : List (String × String)
  payload : DetailPayload
  parsed_url : Option String
deriving DecidableEq

/-- One state of the order-details DOM as the pagination loop sees it: the
raw rows finally extracted (after the re-extraction retries), the current
pagination summary (None when absent or unparsable), and whether the
no-items message shows.  Clicking next advances to the next CrawlPage of
the input list; a failing next click is modelled by the list running out. -/
structure CrawlPage where
  raw_rows : List CrawlRow
  summary : Option PaginationSummary
  no_items : Bool
deriving DecidableEq

/-- A stored crawl row (the dict appended to all_rows in crawl_metadata);
last_error abstracts "; ".join(validation_errors) by the error list itself. -/
structure StoredCrawlRow where
  payment_id : String
  metadata : List (String × String)
  data : CheckDetail
  complete : Bool
  last_error : Option (List ValidationError)
  parsed_url : String
deriving DecidableEq

/-- A structured log event of crawl_metadata. -/
inductive CrawlEvent
  | page_fetched (page rows accepted page_added : ℕ) (pagination : Option PaginationSummary)
  | pagination_stalled (page : ℕ) (reason : String)
  | pagination_complete (page collected total : ℕ)
  | pagination_mismatch (collected expected : ℕ) (pagination : Option PaginationSummary)
  | pagination_verified (collected expected : ℕ)
deriving DecidableEq

/-- Whether an event is one of the two end-of-crawl verdict events
(pagination_mismatch / pagination_verified). -/
def isVerdictEvent : CrawlEvent → Bool
  | CrawlEvent.pagination_mismatch _ _ _ => true
  | CrawlEvent.pagination_verified _ _ => true
  | _ => false

/-- The loop state of crawl_metadata. -/
structure CrawlState where
  seen_ids : List String
  all_rows : List StoredCrawlRow
  page_signatures : List String
  page_count : ℕ
  events : List CrawlEvent
deriving DecidableEq

/-- The loop state at entry of crawl_metadata. -/
def initCrawlState : CrawlState := ⟨[], [], [], 0, []⟩

/-- "|".join of the signature ids. -/
def joinBar (ids : List String) : String := String.intercalate "|" ids

/-- The payment id a raw order block is accepted under
(toast_extract.py:2277-2281): the cleaned block id, falling back to the
normalized metadata's payment_id field. -/
def acceptedId (row : CrawlRow) : String :=
  let payment_id := clean_text row.payment_id
  if payment_id = "" then
    clean_text (dictGet (normalize_metadata_fields row.metadata) "payment_id")
  else payment_id

/-- The stored record built from one accepted raw order block
(toast_extract.py:2290-2299). -/
def storeRow (row : CrawlRow) : StoredCrawlRow :=
  let metadata := normalize_metadata_fields row.metadata
  let detail := map_detail_payload row.payload metadata
  { payment_id := acceptedId row, metadata := metadata, data := detail,
    complete := detail.complete,
    last_error := if detail.validation_errors = [] then none
      else some detail.validation_errors,
    parsed_url := clean_text (pyOr row.parsed_url (some ORDER_DETAILS_URL)) }

/-- The row-acceptance loop of one crawl page (toast_extract.py:2275-2303):
dedupe by payment id, collect the first six accepted ids as the signature,
parse each payload, stop early at the limit.  Returns (seen_ids, all_rows,
signature_ids, page_added). -/
def acceptRows (limit : ℕ) :
    List String → List StoredCrawlRow → List String → ℕ → List CrawlRow →
    List String × List StoredCrawlRow × List String × ℕ
  | seen, rows, sig, added, [] => (seen, rows, sig, added)
  | seen, rows, sig, added, row :: rest =>
    let payment_id := acceptedId row
    if payment_id = "" ∨ payment_id ∈ seen then
      acceptRows limit seen rows sig added rest
    else
      let seen := payment_id :: seen
      let sig := if sig.length < 6 then sig ++ [payment_id] else sig
      let rows := rows ++ [storeRow row]
      let added := added + 1
      if limit ≠ 0 ∧ rows.length ≥ limit then (seen, rows, sig, added)
      else acceptRows limit seen rows sig added rest

/-- One iteration of the pagination loop of crawl_metadata
(toast_extract.py:2263-2379) on one DOM state: accept the page's rows,
check the page signature against previously seen ones, emit the page
events, and evaluate every break condition.  Returns the updated state,
the pagination summary read on this page, and true exactly when the loop
goes on to click next. -/
def crawlStep (limit max_pages : ℕ) (s : CrawlState) (page : CrawlPage) :
    CrawlState × Option PaginationSummary × Bool :=
  let page_count := s.page_count + 1
  let acc := acceptRows limit s.seen_ids s.all_rows [] 0 page.raw_rows
  let seen := acc.1
  let rows := acc.2.1
  let sig_ids := acc.2.2.1
  let page_added := acc.2.2.2
  let signature := joinBar sig_ids
  if signature ≠ "" ∧ signature ∈ s.page_signatures then
    ({ seen_ids := seen, all_rows := rows, page_signatures := s.page_signatures,
       page_count := page_count,
       events := s.events ++
         [CrawlEvent.pagination_stalled page_count "repeated_page_signature"] },
     page.summary, false)
  else
    let sigs := if signature ≠ "" then s.page_signatures ++ [signature]
      else s.page_signatures
    let current_summary := page.summary
    let events := s.events ++
      [CrawlEvent.page_fetched page_count page.raw_rows.length rows.length page_added
        current_summary]
    let s' : CrawlState := { seen_ids := seen, all_rows := rows, page_signatures := sigs,
                             page_count := page_count, events := events }
    if limit ≠ 0 ∧ rows.length ≥ limit then (s', current_summary, false)
    else if page_count > 1 ∧ page_added = 0 then
      ({ s' with events := s'.events ++
          [CrawlEvent.pagination_stalled page_count "no_new_ids"] },
       current_summary, false)
    else if max_pages ≠ 0 ∧ page_count ≥ max_pages then (s', current_summary, false)
    else if page.no_items then (s', current_summary, false)
    else if page.raw_rows = [] then (s', current_summary, false)
    else
      let completeTotal : Option ℕ :=
        match current_summary with
        | some cs => if cs.stop ≥ cs.total then some cs.total else none
        | none => none
      match completeTotal with
      | some tot =>
        ({ s' with events := s'.events ++
            [CrawlEvent.pagination_complete page_count rows.length tot] },
         current_summary, false)
      | none => (s', current_summary, true)

/-- The pagination loop of crawl_metadata (toast_extract.py:2263-2379) over
the successive DOM states: step on the current page, and when no break
condition fired, continue on the next DOM state; a failing next click is
the page list running out.  Returns the final loop state together with the
summary of the page the loop stopped on (what the final
get_pagination_summary call reads). -/
def crawlLoop (limit max_pages : ℕ) :
    CrawlState → CrawlPage → List CrawlPage → CrawlState × Option PaginationSummary
  | s, page, [] =>
    let r := crawlStep limit max_pages s page
    (r.1, r.2.1)
  | s, page, next :: rest =>
    let r := crawlStep limit max_pages s page
    if r.2.2 then crawlLoop limit max_pages r.1 next rest
    else (r.1, r.2.1)

/-- The overall outcome of one order-details crawl. -/
structure CrawlOutcome where
  all_rows : List StoredCrawlRow
  events : List CrawlEvent
  page_signatures : List String
  final_summary : Option PaginationSummary
deriving DecidableEq

/-- Embedding of crawl_metadata (toast_extract.py:2230-2399): run the
pagination loop from the first DOM state, then the end-of-crawl
verification against the last pagination summary. -/
def crawl_metadata (limit max_pages : ℕ) (first : CrawlPage) (rest : List CrawlPage) :
    CrawlOutcome :=
  let r := crawlLoop limit max_pages initCrawlState first rest
  let s := r.1
  let final_summary := r.2
  let expected_total := (final_summary.map PaginationSummary.total).getD 0
  let collected := s.all_rows.length
  let events :=
    if expected_total ≠ 0 ∧ collected ≠ expected_total then
      s.events ++ [CrawlEvent.pagination_mismatch collected expected_total final_summary]
    else if expected_total ≠ 0 then
      s.events ++ [CrawlEvent.pagination_verified collected expected_total]
    else s.events
  { all_rows := s.all_rows, events := events, page_signatures := s.page_signatures,
    final_summary := final_summary }

/-- A concrete payload whose parsed record is complete while the unrounded
reconciliation sum is 0.054: subtotal 0.054 from the summary spans, zero
tax / tip / gratuity / total, one item row, and a server identity. -/
def reconPayload : DetailPayload :=
  { pairs := [], tables := [⟨["menu item", "qty"], [["Burger", "1"]]⟩],
    summary := ⟨some "0.054", some "0", some "0", some "0", none, some "0"⟩,
    summaryDetails := ⟨none, none, some "Alice", none, none⟩,
    probes := noProbes }

/-- A concrete payload producing a complete record: items, a payment, a
reconciling total and a server identity. -/
def completePayload : DetailPayload :=
  { pairs := [],
    tables := [⟨["menu item", "qty"], [["Burger", "2"]]⟩,
               ⟨["payment type", "amount"], [["Visa credit", "24.60"]]⟩],
    summary := ⟨some "20.00", some "1.60", some "3.00", some "0", none, some "24.60"⟩,
    summaryDetails := ⟨none, none, some "Bob", none, none⟩,
    probes := noProbes }

/-- A concrete payload with subtotal 10.00, total 5.00, tip 0, gratuity 0,
and no tax in any direct source: total − subtotal − tip − gratuity = −5. -/
def taxPayload : DetailPayload :=
  { pairs := [], tables := [],
    summary := ⟨some "10.00", none, some "0", some "0", none, some "5.00"⟩,
    summaryDetails := ⟨none, none, none, none, none⟩,
    probes := noProbes }

/-- A concrete payload with a gift-card payment whose raw type ends in a
four-digit group, plus card hints in the label/value pairs. -/
def giftPayload : DetailPayload :=
  { pairs := [("Card Type", "Visa"), ("Last 4", "5555")],
    tables := [⟨["payment type", "amount"], [["GIFT CARD 1234", "20.00"]]⟩],
    summary := ⟨none, none, none, none, none, none⟩,
    summaryDetails := ⟨none, none, none, none, none⟩,
    probes := noProbes }

/-- The first (and only) payment row parsed from giftPayload. -/
def giftFirstPayment : Payment :=
  ⟨some "Gift Card", none, some 20, none, none, none, none, none, none, none⟩

/-- A detail payload with no content at all. -/
def emptyDetailPayload : DetailPayload :=
  { pairs := [], tables := [],
    summary := ⟨none, none, none, none, none, none⟩,
    summaryDetails := ⟨none, none, none, none, none⟩,
    probes := noProbes }

/-- A DOM state with a single order block (payment id "p1") and a
pagination summary reporting 1 of 1. -/
def verifyPage : CrawlPage :=
  { raw_rows := [{ payment_id := some "p1", metadata := [],
                   payload := emptyDetailPayload, parsed_url := some "u" }],
    summary := some ⟨1, 1, 1⟩, no_items := false }

/-- A loop state that has already recorded page signature "p1". -/
def repeatState : CrawlState :=
  { seen_ids := [], all_rows := [], page_signatures := ["p1"], page_count := 1,
    events := [] }
theorem num_eq_mul_den (a : ℚ) : (a.num : ℚ) = a * a.den := by
  have h := Rat.num_div_den a
  have hd : (a.den : ℚ) ≠ 0 := Nat.cast_ne_zero.mpr a.den_nz
  rw [div_eq_iff hd] at h
  exact h

theorem qAdd_eq (a b : ℚ) : qAdd a b = a + b := by
  have ha : (a.den : ℚ) ≠ 0 := Nat.cast_ne_zero.mpr a.den_nz
  have hb : (b.den : ℚ) ≠ 0 := Nat.cast_ne_zero.mpr b.den_nz
  rw [qAdd, Rat.mkRat_eq_divInt, Rat.divInt_eq_div]
  push_cast
  rw [div_eq_iff (mul_ne_zero ha hb), num_eq_mul_den a, num_eq_mul_den b]
  ring

theorem qNeg_eq (a : ℚ) : qNeg a = -a := by
  have ha : (a.den : ℚ) ≠ 0 := Nat.cast_ne_zero.mpr a.den_nz
  rw [qNeg, Rat.mkRat_eq_divInt, Rat.divInt_eq_div]
  push_cast
  rw [div_eq_iff ha, num_eq_mul_den a]
  ring

theorem qSub_eq (a b : ℚ) : qSub a b = a - b := by
  rw [qSub, qAdd_eq, qNeg_eq]
  ring

theorem qMul_eq (a b : ℚ) : qMul a b = a * b := by
  have ha : (a.den : ℚ) ≠ 0 := Nat.cast_ne_zero.mpr a.den_nz
  have hb : (b.den : ℚ) ≠ 0 := Nat.cast_ne_zero.mpr b.den_nz
  rw [qMul, Rat.mkRat_eq_divInt, Rat.divInt_eq_div]
  push_cast
  rw [div_eq_iff (mul_ne_zero ha hb), num_eq_mul_den a, num_eq_mul_den b]
  ring

theorem qLeB_iff (a b : ℚ) : qLeB a b = true ↔ a ≤ b := by
  rw [qLeB, decide_eq_true_iff]
  have ha : (0 : ℚ) < a.den := by exact_mod_cast Nat.pos_of_ne_zero a.den_nz
  have hb : (0 : ℚ) < b.den := by exact_mod_cast Nat.pos_of_ne_zero b.den_nz
  have key : ((a.num * b.den : ℤ) : ℚ) ≤ ((b.num * a.den : ℤ) : ℚ) ↔ a ≤ b := by
    push_cast
    rw [num_eq_mul_den a, num_eq_mul_den b,
        show a * (a.den : ℚ) * b.den = a * ((a.den : ℚ) * b.den) by ring,
        show b * (b.den : ℚ) * a.den = b * ((a.den : ℚ) * b.den) by ring]
    exact mul_le_mul_right (mul_pos ha hb)
  constructor
  · intro h
    rw [← key]
    exact_mod_cast h
  · intro h
    exact_mod_cast key.mpr h

theorem qLtB_iff (a b : ℚ) : qLtB a b = true ↔ a < b := by
  rw [qLtB, decide_eq_true_iff]
  have ha : (0 : ℚ) < a.den := by exact_mod_cast Nat.pos_of_ne_zero a.den_nz
  have hb : (0 : ℚ) < b.den := by exact_mod_cast Nat.pos_of_ne_zero b.den_nz
  have key : ((a.num * b.den : ℤ) : ℚ) < ((b.num * a.den : ℤ) : ℚ) ↔ a < b := by
    push_cast
    rw [num_eq_mul_den a, num_eq_mul_den b,
        show a * (a.den : ℚ) * b.den = a * ((a.den : ℚ) * b.den) by ring,
        show b * (b.den : ℚ) * a.den = b * ((a.den : ℚ) * b.den) by ring]
    exact mul_lt_mul_right (mul_pos ha hb)
  constructor
  · intro h
    rw [← key]
    exact_mod_cast h
  · intro h
    exact_mod_cast key.mpr h

theorem qAbs_eq (a : ℚ) : qAbs a = |a| := by
  rw [qAbs]
  by_cases h : a < 0
  · rw [if_pos ((qLtB_iff a 0).mpr h), qNeg_eq, abs_of_neg h]
  · have h' : qLtB a 0 ≠ true := fun hc => h ((qLtB_iff a 0).mp hc)
    rw [if_neg h', abs_of_nonneg (not_lt.mp h)]

theorem zRound_eq (x : ℚ) : zRound x = round x := by
  rw [round_eq, zRound]
  have hd : (x.den : ℚ) ≠ 0 := Nat.cast_ne_zero.mpr x.den_nz
  have hx : x + 1 / 2 = ((2 * x.num + (x.den : ℤ) : ℤ) : ℚ) / ((2 * x.den : ℕ) : ℚ) := by
    push_cast
    rw [eq_div_iff (by positivity : (2 * (x.den : ℚ)) ≠ 0), num_eq_mul_den x]
    ring
  rw [hx, Rat.floor_intCast_div_natCast]
  push_cast
  rfl

theorem round2_eq (q : ℚ) : round2 q = ((round (q * 100) : ℤ) : ℚ) / 100 := by
  rw [round2, zRound_eq, qMul_eq, Rat.mkRat_eq_divInt, Rat.divInt_eq_div]
  norm_num


theorem mkRatCast (n : ℤ) (d : ℕ) : (mkRat n d : ℚ) = (n : ℚ) / (d : ℚ) := by
  rw [Rat.mkRat_eq_divInt, Rat.divInt_eq_div]
  norm_num

theorem abs_round2_sub_le (q : ℚ) : |round2 q - q| ≤ 1/200 := by
  rw [round2_eq]
  have h := abs_sub_round (q * 100)
  rw [abs_sub_comm] at h
  have e : ((round (q * 100) : ℤ) : ℚ) / 100 - q = (((round (q * 100) : ℤ) : ℚ) - q * 100) / 100 := by
    ring
  rw [e, abs_div, abs_of_pos (by norm_num : (0:ℚ) < 100)]
  calc |((round (q * 100) : ℤ) : ℚ) - q * 100| / 100 ≤ (1/2) / 100 :=
        (div_le_div_right (by norm_num)).mpr h
    _ = 1/200 := by norm_num

/-- C9: parse_decimal is total over all inputs: every value maps to None or
a rational and nothing raises; the cleaning keeps only digits, '.' and '-';
a residue that is empty or one of "-", ".", "-." yields None; a residue
that still fails float conversion (such as "1.2.3" or "--5") yields None
rather than raising; and "$1,234.56" parses to 1234.56. -/
theorem parse_decimal_total_spec :
    (∀ v : Option String, parse_decimal v = none ∨ ∃ q : ℚ, parse_decimal v = some q)
    ∧ (∀ s : String,
        cleanDecimal (pyStrip s) = "" ∨ cleanDecimal (pyStrip s) = "-" ∨
        cleanDecimal (pyStrip s) = "." ∨ cleanDecimal (pyStrip s) = "-." →
        parse_decimal (some s) = none)
    ∧ parse_decimal (some "1.2.3") = none
    ∧ parse_decimal (some "--5") = none
    ∧ parse_decimal (some "$1,234.56") = some (123456 / 100 : ℚ) := by
  refine ⟨?_, ?_, by decide, by decide, ?_⟩
  · intro v
    cases parse_decimal v with
    | none => exact Or.inl rfl
    | some q => exact Or.inr ⟨q, rfl⟩
  · intro s h
    simp only [parse_decimal]
    rcases h with h | h | h | h <;> rw [h] <;> split <;> simp
  · have h1 : parse_decimal (some "$1,234.56") = some (mkRat 123456 100) := by decide
    rw [h1]
    congr 1
    rw [mkRatCast]
    norm_num

/-- Witness for C9 at the concrete input " -. ". -/
theorem parse_decimal_total_spec_witness : parse_decimal (some " -. ") = none :=
  parse_decimal_total_spec.2.1 " -. " (by decide)

/-- C10: every input whose cleaned server text contains both '(' and ')' is
dropped: sanitize_server_value returns None. -/
theorem sanitize_server_paren_drop (s : String)
    (hl : '(' ∈ (serverCleanedText s).data) (hr : ')' ∈ (serverCleanedText s).data) :
    sanitize_server_value (some s) = none := by
  have hc : ((serverCleanedText s).data.contains '(' &&
      (serverCleanedText s).data.contains ')') = true := by
    simp only [Bool.and_eq_true]
    exact ⟨List.elem_eq_true_of_mem hl, List.elem_eq_true_of_mem hr⟩
  simp only [sanitize_server_value]
  split
  · rfl
  split
  · rfl
  split
  · rfl
  rfl

/-- Witness for C10 at the concrete input "Bob (abc)". -/
theorem sanitize_server_paren_drop_witness : sanitize_server_value (some "Bob (abc)") = none :=
  sanitize_server_paren_drop "Bob (abc)" (by decide) (by decide)

/-- C2: for every parser output with complete = true, the items list is
non-empty, the payments list is non-empty or the total is approximately 0
(|total| < 0.005), at least one identity field (check_number, time_opened,
server) is present, and validation_errors is empty. -/
theorem complete_flag_spec (payload : DetailPayload) (md : List (String × String))
    (h : (map_detail_payload payload md).complete = true) :
    (map_detail_payload payload md).items ≠ []
    ∧ ((map_detail_payload payload md).payments ≠ [] ∨
        ∃ t, (map_detail_payload payload md).total = some t ∧ |t| < 1/200)
    ∧ ((map_detail_payload payload md).check_number.isSome = true ∨
        optTruthy (map_detail_payload payload md).time_opened = true ∨
        optTruthy (map_detail_payload payload md).server = true)
    ∧ (map_detail_payload payload md).validation_errors = [] := by
  rw [show map_detail_payload payload md
      = map_detail_finalize (map_detail_core payload md) from rfl] at h ⊢
  generalize map_detail_core payload md = m at h ⊢
  simp only [map_detail_finalize] at h ⊢
  rw [Bool.and_eq_true, Bool.and_eq_true, Bool.and_eq_true, Bool.and_eq_true] at h
  obtain ⟨⟨⟨⟨h1, h2⟩, _h3⟩, h4⟩, h5⟩ := h
  refine ⟨?_, ?_, ?_, ?_⟩
  · intro he
    rw [he] at h1
    simp at h1
  · rw [Bool.or_eq_true] at h2
    rcases h2 with h2 | h2
    · left
      intro he
      rw [he] at h2
      simp at h2
    · right
      match ht : m.total with
      | some t =>
        rw [ht] at h2
        refine ⟨t, rfl, ?_⟩
        have hq := (qLtB_iff (qAbs t) (mkRat 5 1000)).mp h2
        rw [qAbs_eq, mkRatCast] at hq
        norm_num at hq
        exact hq
      | none =>
        rw [ht] at h2
        simp at h2
  · rw [Bool.or_eq_true, Bool.or_eq_true] at h4
    rcases h4 with (h | h) | h
    exacts [Or.inl h, Or.inr (Or.inl h), Or.inr (Or.inr h)]
  · simpa using h5

/-- Witness for C2 at a concrete complete payload. -/
theorem complete_flag_spec_witness :
    (map_detail_payload completePayload []).items ≠ []
    ∧ ((map_detail_payload completePayload []).payments ≠ [] ∨
        ∃ t, (map_detail_payload completePayload []).total = some t ∧ |t| < 1/200)
    ∧ ((map_detail_payload completePayload []).check_number.isSome = true ∨
        optTruthy (map_detail_payload completePayload []).time_opened = true ∨
        optTruthy (map_detail_payload completePayload []).server = true)
    ∧ (map_detail_payload completePayload []).validation_errors = [] :=
  complete_flag_spec completePayload [] (by decide)

theorem validate_nil_total_bound (s tx tp g t d : ℚ) (items : List LineItem)
    (h : validate_detail_payload (some s) (some tx) (some tp) (some g) (some t) d items = []) :
    |round2 (s + tx + tp + g - d) - t| ≤ 5/100 := by
  simp only [validate_detail_payload] at h
  rw [List.append_eq_nil] at h
  obtain ⟨h1, _⟩ := h
  have e1 : qSub (qAdd (qAdd (qAdd s tx) tp) g) d = s + tx + tp + g - d := by
    rw [qSub_eq, qAdd_eq, qAdd_eq, qAdd_eq]
  rw [e1] at h1
  cases hc : qLtB (mkRat 5 100) (qAbs (qSub (round2 (s + tx + tp + g - d)) t)) with
  | true =>
    rw [hc] at h1
    simp at h1
  | false =>
    have : ¬ (mkRat 5 100 : ℚ) < qAbs (qSub (round2 (s + tx + tp + g - d)) t) := by
      intro hlt
      rw [(qLtB_iff _ _).mpr hlt] at hc
      exact Bool.true_eq_false.mp hc
    rw [qAbs_eq, qSub_eq, mkRatCast] at this
    norm_num at this
    linarith

theorem validate_mismatch_emitted (s tx tp g t d : ℚ) (items : List LineItem)
    (h : |round2 (s + tx + tp + g - d) - t| > 5/100) :
    ValidationError.total_mismatch (round2 (s + tx + tp + g - d)) t ∈
      validate_detail_payload (some s) (some tx) (some tp) (some g) (some t) d items := by
  simp only [validate_detail_payload]
  have e1 : qSub (qAdd (qAdd (qAdd s tx) tp) g) d = s + tx + tp + g - d := by
    rw [qSub_eq, qAdd_eq, qAdd_eq, qAdd_eq]
  rw [e1]
  have hcond : qLtB (mkRat 5 100) (qAbs (qSub (round2 (s + tx + tp + g - d)) t)) = true := by
    rw [qLtB_iff, qAbs_eq, qSub_eq, mkRatCast]
    norm_num
    linarith
  rw [hcond]
  simp

/-- C1 (corrected): the validator appends a total_mismatch error whenever
the two-decimal ROUNDED expected total differs from the actual total by
more than 0.05; complete requires validation_errors to be empty; and hence
every complete record with all six monetary fields present satisfies
|round2(subtotal + tax + tip + gratuity − discount) − total| ≤ 0.05, which
bounds the unrounded reconciliation sum by 0.055 — not by the claimed
0.05. -/
theorem reconciliation_amended :
    (∀ s tx tp g t d : ℚ, ∀ items : List LineItem,
        |round2 (s + tx + tp + g - d) - t| > 5/100 →
        ValidationError.total_mismatch (round2 (s + tx + tp + g - d)) t ∈
          validate_detail_payload (some s) (some tx) (some tp) (some g) (some t) d items)
    ∧ (∀ payload : DetailPayload, ∀ md : List (String × String),
        (map_detail_payload payload md).complete = true →
        (map_detail_payload payload md).validation_errors = [])
    ∧ (∀ payload : DetailPayload, ∀ md : List (String × String), ∀ s tx tp g t : ℚ,
        (map_detail_payload payload md).complete = true →
        (map_detail_payload payload md).subtotal = some s →
        (map_detail_payload payload md).tax = some tx →
        (map_detail_payload payload md).tip = some tp →
        (map_detail_payload payload md).gratuity = some g →
        (map_detail_payload payload md).total = some t →
        |round2 (s + tx + tp + g - (map_detail_payload payload md).discount) - t| ≤ 5/100
        ∧ |s + tx + tp + g - (map_detail_payload payload md).discount - t| ≤ 11/200) := by
  refine ⟨validate_mismatch_emitted, ?_, ?_⟩
  · intro payload md h
    rw [show map_detail_payload payload md
        = map_detail_finalize (map_detail_core payload md) from rfl] at h ⊢
    generalize map_detail_core payload md = m at h ⊢
    simp only [map_detail_finalize] at h ⊢
    rw [Bool.and_eq_true] at h
    simpa using h.2
  · intro payload md s tx tp g t hc hs htx htp hg ht
    have herr : (map_detail_payload payload md).validation_errors = [] := by
      rw [show map_detail_payload payload md
          = map_detail_finalize (map_detail_core payload md) from rfl] at hc ⊢
      generalize map_detail_core payload md = m at hc ⊢
      simp only [map_detail_finalize] at hc ⊢
      rw [Bool.and_eq_true] at hc
      simpa using hc.2
    have hval : validate_detail_payload (some s) (some tx) (some tp) (some g) (some t)
        (map_detail_payload payload md).discount (map_detail_core payload md).items = [] := by
      rw [show map_detail_payload payload md
          = map_detail_finalize (map_detail_core payload md) from rfl] at herr hs htx htp hg ht ⊢
      generalize map_detail_core payload md = m at herr hs htx htp hg ht ⊢
      simp only [map_detail_finalize] at herr hs htx htp hg ht ⊢
      rw [← hs, ← htx, ← htp, ← hg, ← ht]
      exact herr
    have hb := validate_nil_total_bound s tx tp g t
        (map_detail_payload payload md).discount (map_detail_core payload md).items hval
    refine ⟨hb, ?_⟩
    have h2 := abs_round2_sub_le (s + tx + tp + g - (map_detail_payload payload md).discount)
    calc |s + tx + tp + g - (map_detail_payload payload md).discount - t|
        ≤ |s + tx + tp + g - (map_detail_payload payload md).discount -
            round2 (s + tx + tp + g - (map_detail_payload payload md).discount)| +
          |round2 (s + tx + tp + g - (map_detail_payload payload md).discount) - t| :=
          abs_sub_le _ _ _
      _ ≤ 1/200 + 5/100 := by
          apply add_le_add ?_ hb
          rw [abs_sub_comm]
          exact h2
      _ = 11/200 := by norm_num

/-- C1 counterexample: the record parsed from reconPayload is complete with
all six monetary fields present, yet
|subtotal + tax + tip + gratuity − discount − total| = 0.054 > 0.05: the
validator compares the two-decimal rounded expected total (0.05 here)
against the actual total, so the unrounded sum can exceed 0.05 by the
rounding slack. -/
theorem reconciliation_bound_counterexample :
    (map_detail_payload reconPayload []).complete = true
    ∧ (map_detail_payload reconPayload []).subtotal = some (mkRat 54 1000)
    ∧ (map_detail_payload reconPayload []).tax = some 0
    ∧ (map_detail_payload reconPayload []).tip = some 0
    ∧ (map_detail_payload reconPayload []).gratuity = some 0
    ∧ (map_detail_payload reconPayload []).discount = 0
    ∧ (map_detail_payload reconPayload []).total = some 0
    ∧ ¬(|(mkRat 54 1000 : ℚ) + 0 + 0 + 0 - 0 - 0| ≤ 5/100) := by
  refine ⟨by decide, by decide, by decide, by decide, by decide, by decide, by decide, ?_⟩
  rw [mkRatCast]
  norm_num
  rw [abs_of_pos (by norm_num : (0:ℚ) < 27/500)]
  norm_num

/-- Witness for C1 (amended) at reconPayload. -/
theorem reconciliation_amended_witness :
    |round2 ((mkRat 54 1000 : ℚ) + 0 + 0 + 0 - (map_detail_payload reconPayload []).discount)
        - 0| ≤ 5/100
    ∧ |(mkRat 54 1000 : ℚ) + 0 + 0 + 0 - (map_detail_payload reconPayload []).discount - 0|
        ≤ 11/200 :=
  reconciliation_amended.2.2 reconPayload [] (mkRat 54 1000) 0 0 0 0
    (by decide) (by decide) (by decide) (by decide) (by decide) (by decide)

theorem clamp_eval (c : ℚ) :
    clamp_small_tax (some c) = some (if |c| < 1/200 then 0 else c) := by
  simp only [clamp_small_tax]
  by_cases h : |c| < 1/200
  · rw [if_pos h, if_pos (by rw [qLtB_iff, qAbs_eq, mkRatCast]; norm_num; linarith)]
  · rw [if_neg h, if_neg (fun hq => h (by
      have hx := (qLtB_iff (qAbs c) (mkRat 5 1000)).mp hq
      rw [qAbs_eq, mkRatCast] at hx
      norm_num at hx
      linarith))]

theorem clamp_small_tax_spec (o : Option ℚ) (w : ℚ) (h : clamp_small_tax o = some w) :
    w = 0 ∨ 1/200 ≤ |w| := by
  cases o with
  | none => simp [clamp_small_tax] at h
  | some v =>
    simp only [clamp_small_tax] at h
    split at h
    · left
      exact (Option.some_inj.mp h).symm
    · right
      rename_i hq
      have hnl : ¬ |v| < 1/200 := fun hlt => hq (by
        rw [qLtB_iff, qAbs_eq, mkRatCast]
        norm_num
        linarith)
      rw [← Option.some_inj.mp h]
      exact not_lt.mp hnl

theorem fuse_tax_rule1 (s t : ℚ) (tip gratuity : Option ℚ) (items : List LineItem) (c : ℚ)
    (hc : c = round2 (t - s - tip.getD 0 - gratuity.getD 0)) (hnn : 0 ≤ c) :
    fuse_tax none (some s) (some t) tip gratuity items
      = some (if |c| < 1/200 then 0 else c) := by
  have e1 : qSub (qSub (qSub t s) (tip.getD 0)) (gratuity.getD 0)
      = t - s - tip.getD 0 - gratuity.getD 0 := by
    rw [qSub_eq, qSub_eq, qSub_eq]
  have hle : qLeB 0 c = true := (qLeB_iff 0 c).mpr hnn
  rw [← clamp_eval c]
  simp only [fuse_tax, e1, ← hc, hle]
  congr 1

theorem fuse_tax_rule1_neg (s t : ℚ) (tip gratuity : Option ℚ) (c : ℚ)
    (hc : c = round2 (t - s - tip.getD 0 - gratuity.getD 0)) (hneg : c < 0) :
    fuse_tax none (some s) (some t) tip gratuity [] = none := by
  have e1 : qSub (qSub (qSub t s) (tip.getD 0)) (gratuity.getD 0)
      = t - s - tip.getD 0 - gratuity.getD 0 := by
    rw [qSub_eq, qSub_eq, qSub_eq]
  have hle : qLeB 0 c = false := by
    cases hq : qLeB 0 c with
    | false => rfl
    | true =>
      have := (qLeB_iff 0 c).mp hq
      linarith
  simp only [fuse_tax, e1, ← hc, hle]
  simp [clamp_small_tax]

theorem fuse_tax_items_rule (tip gratuity : Option ℚ) (items : List LineItem) (c : ℚ)
    (hne : items ≠ [])
    (hc : c = round2 (items_gross_sum items - items_net_sum items)) (hnn : 0 ≤ c) :
    fuse_tax none none none tip gratuity items
      = some (if |c| < 1/200 then 0 else c) := by
  have e1 : qSub (items_gross_sum items) (items_net_sum items)
      = items_gross_sum items - items_net_sum items := qSub_eq _ _
  have hle : qLeB 0 c = true := (qLeB_iff 0 c).mpr hnn
  rw [← clamp_eval c]
  simp only [fuse_tax, e1, ← hc, hle]
  congr 1
  simp [hne]

theorem fuse_tax_clamped (direct subtotal total tip gratuity : Option ℚ)
    (items : List LineItem) (w : ℚ)
    (h : fuse_tax direct subtotal total tip gratuity items = some w) :
    w = 0 ∨ 1/200 ≤ |w| := by
  simp only [fuse_tax] at h
  exact clamp_small_tax_spec _ _ h

theorem map_tax_is_fused (payload : DetailPayload) (md : List (String × String)) :
    (map_detail_payload payload md).tax
      = fuse_tax (tax_direct payload (normalize_metadata_fields md))
          (map_detail_payload payload md).subtotal (map_detail_payload payload md).total
          (map_detail_payload payload md).tip (map_detail_payload payload md).gratuity
          (map_detail_payload payload md).items := rfl

/-- C3 (corrected): the parser's tax is fuse_tax of the direct sources and
the fused fields; with no direct tax and subtotal and total present, tax
becomes round(total − subtotal − tip − gratuity, 2) only when that value is
≥ 0 (when it is negative and there are no items, tax stays missing — the
claim omitted both the rounding and the non-negativity guard); when still
missing and items are present, tax becomes round(Σ gross − Σ net, 2), again
only when ≥ 0; and any resulting |tax| < 0.005 is clamped to 0. -/
theorem tax_fusion_amended :
    (∀ payload : DetailPayload, ∀ md : List (String × String),
        (map_detail_payload payload md).tax
          = fuse_tax (tax_direct payload (normalize_metadata_fields md))
              (map_detail_payload payload md).subtotal (map_detail_payload payload md).total
              (map_detail_payload payload md).tip (map_detail_payload payload md).gratuity
              (map_detail_payload payload md).items)
    ∧ (∀ s t : ℚ, ∀ tip gratuity : Option ℚ, ∀ items : List LineItem, ∀ c : ℚ,
        c = round2 (t - s - tip.getD 0 - gratuity.getD 0) → 0 ≤ c →
        fuse_tax none (some s) (some t) tip gratuity items
          = some (if |c| < 1/200 then 0 else c))
    ∧ (∀ s t : ℚ, ∀ tip gratuity : Option ℚ, ∀ c : ℚ,
        c = round2 (t - s - tip.getD 0 - gratuity.getD 0) → c < 0 →
        fuse_tax none (some s) (some t) tip gratuity [] = none)
    ∧ (∀ tip gratuity : Option ℚ, ∀ items : List LineItem, ∀ c : ℚ,
        items ≠ [] → c = round2 (items_gross_sum items - items_net_sum items) → 0 ≤ c →
        fuse_tax none none none tip gratuity items = some (if |c| < 1/200 then 0 else c))
    ∧ (∀ direct subtotal total tip gratuity : Option ℚ, ∀ items : List LineItem, ∀ w : ℚ,
        fuse_tax direct subtotal total tip gratuity items = some w →
        w = 0 ∨ 1/200 ≤ |w|) :=
  ⟨map_tax_is_fused, fuse_tax_rule1, fuse_tax_rule1_neg, fuse_tax_items_rule, fuse_tax_clamped⟩

/-- C3 counterexample: on taxPayload, tax is absent from every direct
source and subtotal 10, total 5, tip 0, gratuity 0 are all present, yet the
parser leaves tax missing instead of setting it to
total − subtotal − tip − gratuity = −5, because of the non-negativity
guard. -/
theorem tax_fusion_counterexample :
    (map_detail_payload taxPayload []).subtotal = some 10
    ∧ (map_detail_payload taxPayload []).total = some 5
    ∧ (map_detail_payload taxPayload []).tip = some 0
    ∧ (map_detail_payload taxPayload []).gratuity = some 0
    ∧ tax_direct taxPayload (normalize_metadata_fields []) = none
    ∧ (map_detail_payload taxPayload []).tax = none
    ∧ (map_detail_payload taxPayload []).tax ≠ some ((5:ℚ) - 10 - 0 - 0) := by
  refine ⟨by decide, by decide, by decide, by decide, by decide, by decide, ?_⟩
  have h : (map_detail_payload taxPayload []).tax = none := by decide
  rw [h]
  simp

/-- Witness for C3 (amended): derivation rule 1 at subtotal 10, total 11. -/
theorem tax_fusion_amended_witness :
    fuse_tax none (some 10) (some 11) none none []
      = some (if |(1:ℚ)| < 1/200 then 0 else 1) :=
  tax_fusion_amended.2.1 10 11 none none [] 1
    (by
      have h0 : (11:ℚ) - 10 - (none : Option ℚ).getD 0 - (none : Option ℚ).getD 0 = 1 := by
        simp
        norm_num
      rw [h0]
      decide)
    (by norm_num)

theorem paymentOfRow_gift (headers row : List String)
    (h : (paymentOfRow headers row).payment_type = some "Gift Card") :
    (paymentOfRow headers row).card_type = none
    ∧ (paymentOfRow headers row).card_last_4 = none := by
  simp only [paymentOfRow] at h ⊢
  rw [h]
  simp
  constructor <;> (intro hx; exact absurd (by decide) hx)

theorem extract_payments_gift (tables : List RawTable) :
    ∀ p ∈ extract_payments_from_tables tables, p.payment_type = some "Gift Card" →
      p.card_type = none ∧ p.card_last_4 = none := by
  induction tables with
  | nil =>
    intro p hp
    simp [extract_payments_from_tables] at hp
  | cons table rest ih =>
    intro p hp hgift
    simp only [extract_payments_from_tables] at hp
    split at hp
    · exact ih p hp hgift
    · split at hp
      · exact ih p hp hgift
      · split at hp
        · have hm := (List.mem_filter.mp hp).1
          obtain ⟨row, _, hrow⟩ := List.mem_map.mp hm
          rw [← hrow] at hgift ⊢
          exact paymentOfRow_gift _ _ hgift
        · exact ih p hp hgift

theorem fill_first_gift (ct cl : Option String) (payments : List Payment)
    (hall : ∀ p ∈ payments, p.payment_type = some "Gift Card" →
      p.card_type = none ∧ p.card_last_4 = none) :
    ∀ p ∈ fill_first_payment_cards ct cl payments, p.payment_type = some "Gift Card" →
      p.card_type = none ∧ p.card_last_4 = none := by
  cases payments with
  | nil =>
    intro p hp
    simp [fill_first_payment_cards] at hp
  | cons first rest =>
    intro p hp hgift
    simp only [fill_first_payment_cards] at hp
    rcases List.mem_cons.mp hp with hfirst | hrest
    · subst hfirst
      have hpt : first.payment_type = some "Gift Card" := by
        revert hgift
        split <;> split <;> (intro hx; exact hx)
      have hcards := hall first (List.mem_cons_self _ _) hpt
      have hallow : strLower (pyStrip (first.payment_type.getD "")) = "gift card" := by
        rw [hpt]
        decide
      revert hgift
      split
      · rename_i hcond
        exact absurd hallow hcond.1
      · split
        · rename_i hcond
          exact absurd hallow hcond.1
        · intro _
          exact hcards
    · exact hall p (List.mem_cons_of_mem _ hrest) hgift

/-- C4: every payment row produced by the parser whose normalized type is
"Gift Card" carries neither card_type nor card_last_4 — including when the
raw payment-type string ends in a four-digit group, and despite the
page-level card backfill into the first payment. -/
theorem gift_card_payment_bare (payload : DetailPayload) (md : List (String × String)) :
    ∀ p ∈ (map_detail_payload payload md).payments, p.payment_type = some "Gift Card" →
      p.card_type = none ∧ p.card_last_4 = none := by
  have hpayeq : ∃ ct cl, (map_detail_payload payload md).payments
      = fill_first_payment_cards ct cl (extract_payments_from_tables payload.tables) :=
    ⟨_, _, rfl⟩
  obtain ⟨ct, cl, he⟩ := hpayeq
  rw [he]
  exact fill_first_gift ct cl _ (extract_payments_gift payload.tables)

/-- Witness for C4: the gift-card payment of giftPayload, whose raw type
"GIFT CARD 1234" ends in a four-digit group and whose payload pairs carry
card hints, is stored with no card_type and no card_last_4. -/
theorem gift_card_payment_bare_witness :
    giftFirstPayment ∈ (map_detail_payload giftPayload []).payments
    ∧ giftFirstPayment.card_type = none ∧ giftFirstPayment.card_last_4 = none :=
  ⟨by decide, gift_card_payment_bare giftPayload [] giftFirstPayment (by decide) (by decide)⟩

theorem round3_le_add (x : ℚ) : round3 x ≤ x + 1/2000 := by
  rw [round3]
  have h := abs_sub_round (x * 1000)
  rw [abs_le] at h
  have h2 : ((round (x * 1000) : ℤ) : ℚ) ≤ x * 1000 + 1/2 := by linarith [h.1]
  calc ((round (x * 1000) : ℤ) : ℚ) / 1000 ≤ (x * 1000 + 1/2) / 1000 :=
        (div_le_div_right (by norm_num)).mpr h2
    _ = x + 1/2000 := by ring

theorem throttleStep_multiplier_bounds (s : ThrottleState)
    (h : 1 ≤ s.throttle_multiplier ∧ s.throttle_multiplier ≤ 8) (o : RunOutcome) :
    1 ≤ (throttleStep s o).throttle_multiplier
    ∧ (throttleStep s o).throttle_multiplier ≤ 8 := by
  obtain ⟨h1, h8⟩ := h
  cases o with
  | success =>
    simp only [throttleStep, throttleRelax]
    split
    · refine ⟨le_max_left _ _, ?_⟩
      rw [max_le_iff]
      refine ⟨by norm_num, ?_⟩
      have hr := round3_le_add (s.throttle_multiplier * (9/10))
      have : s.throttle_multiplier * (9/10) ≤ 36/5 := by linarith
      linarith
    · exact ⟨h1, h8⟩
  | failure msg now jitter =>
    simp only [throttleStep]
    split
    · simp only [throttleBackoff]
      constructor
      · rw [le_min_iff]
        refine ⟨by norm_num, ?_⟩
        calc (1:ℚ) ≤ 3/2 := by norm_num
          _ ≤ max (3/2) (s.throttle_multiplier * (165/100)) := le_max_left _ _
      · exact min_le_left _ _
    · exact ⟨h1, h8⟩

theorem throttleRun_bounds (outcomes : List RunOutcome) :
    1 ≤ (throttleRun outcomes).throttle_multiplier
    ∧ (throttleRun outcomes).throttle_multiplier ≤ 8 := by
  rw [throttleRun]
  have key : ∀ s : ThrottleState, 1 ≤ s.throttle_multiplier ∧ s.throttle_multiplier ≤ 8 →
      1 ≤ (outcomes.foldl throttleStep s).throttle_multiplier
      ∧ (outcomes.foldl throttleStep s).throttle_multiplier ≤ 8 := by
    induction outcomes with
    | nil => intro s hs; exact hs
    | cons o os ih =>
      intro s hs
      exact ih _ (throttleStep_multiplier_bounds s hs o)
  exact key initThrottleState (by constructor <;> norm_num [initThrottleState])

/-- C7: the throttle controller.  Every error classified as throttle or
auth-block increments the event counter, sets
multiplier = min(8, max(1.5, multiplier·1.65)), and raises throttle_until
to max(old, now + min(120, 2^min(events,7)) + jitter) — hence to at least
now + min(120, 2^min(events,7)) when the jitter is non-negative; every
success relaxes a multiplier above 1.0 by 10% (rounded to three decimals)
but never below 1.0; and along every run from the initial state the
multiplier stays within [1, 8]. -/
theorem throttle_controller_spec :
    (∀ s : ThrottleState, ∀ message : String, ∀ now jitter : ℚ,
        is_throttle_error message = true →
        (throttleStep s (RunOutcome.failure message now jitter)).throttle_events
            = s.throttle_events + 1
        ∧ (throttleStep s (RunOutcome.failure message now jitter)).throttle_multiplier
            = min 8 (max (3/2) (s.throttle_multiplier * (165/100)))
        ∧ (throttleStep s (RunOutcome.failure message now jitter)).throttle_until
            = max s.throttle_until
                (now + (min 120 ((2:ℚ) ^ min (s.throttle_events + 1) 7) + jitter))
        ∧ (0 ≤ jitter →
            now + min 120 ((2:ℚ) ^ min (s.throttle_events + 1) 7)
              ≤ (throttleStep s (RunOutcome.failure message now jitter)).throttle_until))
    ∧ (∀ s : ThrottleState, 1 < s.throttle_multiplier →
        (throttleStep s RunOutcome.success).throttle_multiplier
          = max 1 (round3 (s.throttle_multiplier * (9/10)))
        ∧ 1 ≤ (throttleStep s RunOutcome.success).throttle_multiplier)
    ∧ (∀ outcomes : List RunOutcome,
        1 ≤ (throttleRun outcomes).throttle_multiplier
        ∧ (throttleRun outcomes).throttle_multiplier ≤ 8) := by
  refine ⟨?_, ?_, throttleRun_bounds⟩
  · intro s message now jitter herr
    have hstep : throttleStep s (RunOutcome.failure message now jitter)
        = throttleBackoff s now jitter := by
      simp only [throttleStep, if_pos herr]
    rw [hstep]
    refine ⟨rfl, rfl, rfl, ?_⟩
    intro hj
    show now + min 120 ((2:ℚ) ^ min (s.throttle_events + 1) 7)
      ≤ max s.throttle_until
          (now + (min 120 ((2:ℚ) ^ min (s.throttle_events + 1) 7) + jitter))
    calc now + min 120 ((2:ℚ) ^ min (s.throttle_events + 1) 7)
        ≤ now + (min 120 ((2:ℚ) ^ min (s.throttle_events + 1) 7) + jitter) := by linarith
      _ ≤ max s.throttle_until
            (now + (min 120 ((2:ℚ) ^ min (s.throttle_events + 1) 7) + jitter)) :=
          le_max_right _ _
  · intro s hm
    have hstep : throttleStep s RunOutcome.success
        = { s with throttle_multiplier := max 1 (round3 (s.throttle_multiplier * (9/10))) } := by
      simp only [throttleStep, throttleRelax, if_pos hm]
    rw [hstep]
    exact ⟨rfl, le_max_left _ _⟩

/-- Witness for C7 at the initial state and the message "HTTP status=429". -/
theorem throttle_controller_spec_witness :
    (100:ℚ) + min 120 ((2:ℚ) ^ min (initThrottleState.throttle_events + 1) 7)
      ≤ (throttleStep initThrottleState (RunOutcome.failure "HTTP status=429" 100 1)).throttle_until :=
  (throttle_controller_spec.1 initThrottleState "HTTP status=429" 100 1 (by decide)).2.2.2
    (by norm_num)

/-- C8 counterexample: on a concrete state the operation trace of
save_state contains no fsync — the source writes the sibling ".tmp" file
and renames it over the target without ever syncing, contrary to the
claimed write–fsync–rename sequence. -/
theorem save_state_no_fsync_counterexample :
    hasFsync (save_state_ops "out" "out/state.json"
      [("p2", ⟨"p2", "r2"⟩), ("p1", ⟨"p1", "r1"⟩)]) = false := by
  simp [save_state_ops, hasFsync]

/-- C8 (corrected): save_state writes the full serialized snapshot to the
sibling ".tmp" path and renames it over the state file — with no fsync
anywhere in the trace — and the emitted array is the state's records
sorted ascending by payment_id (a permutation of the dict values). -/
theorem save_state_amended :
    (∀ parent path : String, ∀ state : List (String × StoredRecord),
        save_state_ops parent path state
          = [FsOp.mkdirParents parent,
             FsOp.writeText (path ++ ".tmp") (save_state_payload state),
             FsOp.renameOver (path ++ ".tmp") path])
    ∧ (∀ parent path : String, ∀ state : List (String × StoredRecord),
        hasFsync (save_state_ops parent path state) = false)
    ∧ (∀ state : List (String × StoredRecord),
        (save_state_payload state).Pairwise (fun a b => a.payment_id ≤ b.payment_id))
    ∧ (∀ state : List (String × StoredRecord),
        (save_state_payload state).Perm (state.map Prod.snd)) := by
  refine ⟨fun _ _ _ => rfl, ?_, ?_, ?_⟩
  · intro parent path state
    simp [save_state_ops, hasFsync]
  · intro state
    have hs := @List.sorted_mergeSort StoredRecord
      (fun a b : StoredRecord => decide (a.payment_id ≤ b.payment_id))
      (fun a b c hab hbc =>
        decide_eq_true (le_trans (of_decide_eq_true hab) (of_decide_eq_true hbc)))
      (fun a b => by
        rcases le_total a.payment_id b.payment_id with h | h
        · rw [Bool.or_eq_true]
          exact Or.inl (decide_eq_true h)
        · rw [Bool.or_eq_true]
          exact Or.inr (decide_eq_true h))
      (state.map Prod.snd)
    exact hs.imp (fun h => of_decide_eq_true h)
  · intro state
    exact List.mergeSort_perm _ _

theorem events_append_no_verdict {evs new : List CrawlEvent}
    (h1 : ∀ e ∈ evs, isVerdictEvent e = false)
    (h2 : ∀ e ∈ new, isVerdictEvent e = false) :
    ∀ e ∈ evs ++ new, isVerdictEvent e = false := by
  intro e he
  rcases List.mem_append.mp he with h | h
  exacts [h1 e h, h2 e h]

theorem crawlStep_events (limit mp : ℕ) (s : CrawlState) (page : CrawlPage) :
    ∃ ev, (crawlStep limit mp s page).1.events = s.events ++ ev ∧
      ∀ e ∈ ev, isVerdictEvent e = false := by
  simp only [crawlStep]
  split
  · exact ⟨_, rfl, by intro e he; rw [List.mem_singleton] at he; subst he; rfl⟩
  · split
    · exact ⟨_, rfl, by intro e he; rw [List.mem_singleton] at he; subst he; rfl⟩
    · split
      · refine ⟨[_] ++ [_], List.append_assoc _ _ _, ?_⟩
        intro e he
        rcases List.mem_append.mp he with h | h <;>
          (rw [List.mem_singleton] at h; subst h; rfl)
      · split
        · exact ⟨_, rfl, by intro e he; rw [List.mem_singleton] at he; subst he; rfl⟩
        · split
          · exact ⟨_, rfl, by intro e he; rw [List.mem_singleton] at he; subst he; rfl⟩
          · split
            · exact ⟨_, rfl, by intro e he; rw [List.mem_singleton] at he; subst he; rfl⟩
            · split
              · refine ⟨[_] ++ [_], List.append_assoc _ _ _, ?_⟩
                intro e he
                rcases List.mem_append.mp he with h | h <;>
                  (rw [List.mem_singleton] at h; subst h; rfl)
              · exact ⟨_, rfl, by intro e he; rw [List.mem_singleton] at he; subst he; rfl⟩

theorem crawlLoop_events_no_verdict (limit mp : ℕ) :
    ∀ (rest : List CrawlPage) (page : CrawlPage) (s : CrawlState),
      (∀ e ∈ s.events, isVerdictEvent e = false) →
      ∀ e ∈ (crawlLoop limit mp s page rest).1.events, isVerdictEvent e = false := by
  intro rest
  induction rest with
  | nil =>
    intro page s hs e he
    simp only [crawlLoop] at he
    obtain ⟨ev, heq, hev⟩ := crawlStep_events limit mp s page
    rw [heq] at he
    exact events_append_no_verdict hs hev e he
  | cons next rest' ih =>
    intro page s hs e he
    simp only [crawlLoop] at he
    obtain ⟨ev, heq, hev⟩ := crawlStep_events limit mp s page
    split at he
    · exact ih next _ (by rw [heq]; exact events_append_no_verdict hs hev) e he
    · rw [heq] at he
      exact events_append_no_verdict hs hev e he

theorem storeRow_payment_id (row : CrawlRow) :
    (storeRow row).payment_id = acceptedId row := rfl

theorem acceptRows_spec (limit : ℕ) :
    ∀ (rrows : List CrawlRow) (seen : List String) (rows : List StoredCrawlRow)
      (sig : List String) (added : ℕ), sig.length ≤ 6 →
      ∃ t : List StoredCrawlRow,
        (acceptRows limit seen rows sig added rrows).2.1 = rows ++ t ∧
        (acceptRows limit seen rows sig added rrows).2.2.1
          = (sig ++ t.map StoredCrawlRow.payment_id).take 6 := by
  intro rrows
  induction rrows with
  | nil =>
    intro seen rows sig added hlen
    refine ⟨[], ?_, ?_⟩
    · simp [acceptRows]
    · simp only [acceptRows, List.map_nil, List.append_nil]
      exact (List.take_of_length_le hlen).symm
  | cons row rest ih =>
    intro seen rows sig added hlen
    simp only [acceptRows]
    split
    · exact ih seen rows sig added hlen
    · by_cases hl : sig.length < 6
      · rw [if_pos hl]
        split
        · refine ⟨[storeRow row], rfl, ?_⟩
          rw [List.map_cons, List.map_nil, storeRow_payment_id]
          exact (List.take_of_length_le (by simpa using Nat.lt_succ_iff.mp hl)).symm
        · obtain ⟨t, h1, h2⟩ := ih (acceptedId row :: seen) (rows ++ [storeRow row])
            (sig ++ [acceptedId row]) (added + 1) (by simpa using Nat.lt_succ_iff.mp hl)
          refine ⟨storeRow row :: t, ?_, ?_⟩
          · rw [h1, List.append_cons, List.append_assoc]
            simp
          · rw [h2, List.map_cons, storeRow_payment_id, List.append_cons]
            rw [List.append_assoc]
            simp
      · rw [if_neg hl]
        have h6 : sig.length = 6 := le_antisymm hlen (not_lt.mp hl)
        split
        · refine ⟨[storeRow row], rfl, ?_⟩
          rw [List.map_cons, List.map_nil, storeRow_payment_id,
              List.take_append_of_le_length (by rw [h6]),
              List.take_of_length_le (le_of_eq h6)]
        · obtain ⟨t, h1, h2⟩ := ih (acceptedId row :: seen) (rows ++ [storeRow row])
            sig (added + 1) hlen
          refine ⟨storeRow row :: t, ?_, ?_⟩
          · rw [h1, List.append_cons, List.append_assoc]
            simp
          · rw [h2, List.map_cons, storeRow_payment_id,
                List.take_append_of_le_length (by rw [h6]),
                List.take_append_of_le_length (by rw [h6])]

theorem crawlStep_repeat (limit mp : ℕ) (s : CrawlState) (page : CrawlPage)
    (h : joinBar (acceptRows limit s.seen_ids s.all_rows [] 0 page.raw_rows).2.2.1 ≠ "" ∧
         joinBar (acceptRows limit s.seen_ids s.all_rows [] 0 page.raw_rows).2.2.1
           ∈ s.page_signatures) :
    crawlStep limit mp s page =
      ({ seen_ids := (acceptRows limit s.seen_ids s.all_rows [] 0 page.raw_rows).1,
         all_rows := (acceptRows limit s.seen_ids s.all_rows [] 0 page.raw_rows).2.1,
         page_signatures := s.page_signatures,
         page_count := s.page_count + 1,
         events := s.events ++
           [CrawlEvent.pagination_stalled (s.page_count + 1) "repeated_page_signature"] },
       page.summary, false) := by
  simp only [crawlStep]
  split
  · rfl
  · rename_i hneg
    exact absurd h hneg

theorem crawlLoop_repeat (limit mp : ℕ) (s : CrawlState) (page : CrawlPage)
    (rest : List CrawlPage)
    (h : joinBar (acceptRows limit s.seen_ids s.all_rows [] 0 page.raw_rows).2.2.1 ≠ "" ∧
         joinBar (acceptRows limit s.seen_ids s.all_rows [] 0 page.raw_rows).2.2.1
           ∈ s.page_signatures) :
    crawlLoop limit mp s page rest =
      ({ seen_ids := (acceptRows limit s.seen_ids s.all_rows [] 0 page.raw_rows).1,
         all_rows := (acceptRows limit s.seen_ids s.all_rows [] 0 page.raw_rows).2.1,
         page_signatures := s.page_signatures,
         page_count := s.page_count + 1,
         events := s.events ++
           [CrawlEvent.pagination_stalled (s.page_count + 1) "repeated_page_signature"] },
       page.summary) := by
  cases rest with
  | nil =>
    simp only [crawlLoop]
    rw [crawlStep_repeat limit mp s page h]
  | cons next rest' =>
    simp only [crawlLoop]
    rw [crawlStep_repeat limit mp s page h]
    rfl

theorem crawlStep_sigs_nodup (limit mp : ℕ) (s : CrawlState) (page : CrawlPage)
    (hs : s.page_signatures.Nodup) :
    (crawlStep limit mp s page).1.page_signatures.Nodup := by
  simp only [crawlStep]
  split
  · exact hs
  · rename_i hneg
    have hsigs : (if joinBar (acceptRows limit s.seen_ids s.all_rows [] 0
          page.raw_rows).2.2.1 ≠ "" then
        s.page_signatures ++ [joinBar (acceptRows limit s.seen_ids s.all_rows [] 0
          page.raw_rows).2.2.1]
      else s.page_signatures).Nodup := by
      split
      · rename_i hne
        refine hs.append (List.nodup_singleton _) ?_
        rw [List.disjoint_singleton]
        intro hmem
        exact hneg ⟨hne, hmem⟩
      · exact hs
    split
    · exact hsigs
    · split
      · exact hsigs
      · split
        · exact hsigs
        · split
          · exact hsigs
          · split
            · exact hsigs
            · split
              · exact hsigs
              · exact hsigs

theorem crawlLoop_sigs_nodup (limit mp : ℕ) :
    ∀ (rest : List CrawlPage) (page : CrawlPage) (s : CrawlState),
      s.page_signatures.Nodup →
      (crawlLoop limit mp s page rest).1.page_signatures.Nodup := by
  intro rest
  induction rest with
  | nil =>
    intro page s hs
    simp only [crawlLoop]
    exact crawlStep_sigs_nodup limit mp s page hs
  | cons next rest' ih =>
    intro page s hs
    simp only [crawlLoop]
    split
    · exact ih next _ (crawlStep_sigs_nodup limit mp s page hs)
    · exact crawlStep_sigs_nodup limit mp s page hs

theorem crawl_metadata_sigs_nodup (limit mp : ℕ) (first : CrawlPage)
    (rest : List CrawlPage) :
    (crawl_metadata limit mp first rest).page_signatures.Nodup := by
  simp only [crawl_metadata]
  exact crawlLoop_sigs_nodup limit mp rest first initCrawlState List.nodup_nil

/-- C5: Within one order-details crawl the pagination loop never accepts the
same page signature twice (toast_extract.py:2274-2314): (i) the signature
ids of a page are the payment ids of the first six rows accepted on that
page, (ii) when the joined signature is nonempty and equals any previously
seen signature the loop emits pagination_stalled with reason
repeated_page_signature and terminates (the result does not depend on the
remaining pages), and (iii) the recorded page signatures of a whole crawl
never repeat. -/
theorem pagination_signature_guard (limit mp : ℕ) (s : CrawlState) (page : CrawlPage)
    (rest : List CrawlPage) :
    (acceptRows limit s.seen_ids s.all_rows [] 0 page.raw_rows).2.2.1
        = (((acceptRows limit s.seen_ids s.all_rows [] 0 page.raw_rows).2.1.drop
            s.all_rows.length).map StoredCrawlRow.payment_id).take 6 ∧
    ((joinBar (acceptRows limit s.seen_ids s.all_rows [] 0 page.raw_rows).2.2.1 ≠ "" ∧
      joinBar (acceptRows limit s.seen_ids s.all_rows [] 0 page.raw_rows).2.2.1
        ∈ s.page_signatures) →
      crawlLoop limit mp s page rest =
        ({ seen_ids := (acceptRows limit s.seen_ids s.all_rows [] 0 page.raw_rows).1,
           all_rows := (acceptRows limit s.seen_ids s.all_rows [] 0 page.raw_rows).2.1,
           page_signatures := s.page_signatures,
           page_count := s.page_count + 1,
           events := s.events ++
             [CrawlEvent.pagination_stalled (s.page_count + 1)
               "repeated_page_signature"] },
         page.summary)) ∧
    ∀ (first : CrawlPage) (pages : List CrawlPage),
      (crawl_metadata limit mp first pages).page_signatures.Nodup := by
  refine ⟨?_, ?_, ?_⟩
  · obtain ⟨t, h1, h2⟩ := acceptRows_spec limit page.raw_rows s.seen_ids s.all_rows [] 0
      (by simp)
    rw [h2, h1, List.drop_left, List.nil_append]
  · intro h
    exact crawlLoop_repeat limit mp s page rest h
  · intro first pages
    exact crawl_metadata_sigs_nodup limit mp first pages

theorem pagination_signature_guard_witness :
    crawlLoop 0 0 repeatState verifyPage [verifyPage] =
      ({ seen_ids := (acceptRows 0 repeatState.seen_ids repeatState.all_rows [] 0
           verifyPage.raw_rows).1,
         all_rows := (acceptRows 0 repeatState.seen_ids repeatState.all_rows [] 0
           verifyPage.raw_rows).2.1,
         page_signatures := repeatState.page_signatures,
         page_count := repeatState.page_count + 1,
         events := repeatState.events ++
           [CrawlEvent.pagination_stalled (repeatState.page_count + 1)
             "repeated_page_signature"] },
       verifyPage.summary) :=
  (pagination_signature_guard 0 0 repeatState verifyPage [verifyPage]).2.1 (by decide)

/-- C6: At the end of every crawl whose final pagination summary reports a
nonzero total (toast_extract.py:2381-2399), exactly one verdict event is
emitted: pagination_verified when the collected count equals the total,
pagination_mismatch when it differs. -/
theorem pagination_verification_spec (limit mp : ℕ) (first : CrawlPage)
    (rest : List CrawlPage) (fs : PaginationSummary)
    (hfs : (crawl_metadata limit mp first rest).final_summary = some fs)
    (hz : fs.total ≠ 0) :
    ((crawl_metadata limit mp first rest).all_rows.length = fs.total ∧
       CrawlEvent.pagination_verified
           (crawl_metadata limit mp first rest).all_rows.length fs.total
         ∈ (crawl_metadata limit mp first rest).events ∧
       ∀ c e p, CrawlEvent.pagination_mismatch c e p
         ∉ (crawl_metadata limit mp first rest).events) ∨
    ((crawl_metadata limit mp first rest).all_rows.length ≠ fs.total ∧
       CrawlEvent.pagination_mismatch
           (crawl_metadata limit mp first rest).all_rows.length fs.total (some fs)
         ∈ (crawl_metadata limit mp first rest).events ∧
       ∀ c e, CrawlEvent.pagination_verified c e
         ∉ (crawl_metadata limit mp first rest).events) := by
  have hloop : ∀ e ∈ (crawlLoop limit mp initCrawlState first rest).1.events,
      isVerdictEvent e = false :=
    crawlLoop_events_no_verdict limit mp rest first initCrawlState
      (by intro e he; simp [initCrawlState] at he)
  simp only [crawl_metadata] at hfs ⊢
  rw [hfs]
  simp only [Option.map_some', Option.getD_some]
  by_cases hc :
      (crawlLoop limit mp initCrawlState first rest).1.all_rows.length = fs.total
  · left
    rw [if_neg (by intro hcon; exact hcon.2 hc), if_pos hz]
    refine ⟨hc, ?_, ?_⟩
    · rw [hc]
      exact List.mem_append.mpr (Or.inr (List.mem_singleton_self _))
    · intro c e p hmem
      rcases List.mem_append.mp hmem with h | h
      · exact absurd (hloop _ h) (by simp [isVerdictEvent])
      · rw [List.mem_singleton] at h
        exact CrawlEvent.noConfusion h
  · right
    rw [if_pos ⟨hz, hc⟩]
    refine ⟨hc, ?_, ?_⟩
    · exact List.mem_append.mpr (Or.inr (List.mem_singleton_self _))
    · intro c e hmem
      rcases List.mem_append.mp hmem with h | h
      · exact absurd (hloop _ h) (by simp [isVerdictEvent])
      · rw [List.mem_singleton] at h
        exact CrawlEvent.noConfusion h

theorem pagination_verification_spec_witness :
    (crawl_metadata 0 0 verifyPage []).final_summary = some ⟨1, 1, 1⟩ ∧
    (((crawl_metadata 0 0 verifyPage []).all_rows.length = 1 ∧
       CrawlEvent.pagination_verified (crawl_metadata 0 0 verifyPage []).all_rows.length 1
         ∈ (crawl_metadata 0 0 verifyPage []).events ∧
       ∀ c e p, CrawlEvent.pagination_mismatch c e p
         ∉ (crawl_metadata 0 0 verifyPage []).events) ∨
     ((crawl_metadata 0 0 verifyPage []).all_rows.length ≠ 1 ∧
       CrawlEvent.pagination_mismatch (crawl_metadata 0 0 verifyPage []).all_rows.length 1
         (some ⟨1, 1, 1⟩)
         ∈ (crawl_metadata 0 0 verifyPage []).events ∧
       ∀ c e, CrawlEvent.pagination_verified c e
         ∉ (crawl_metadata 0 0 verifyPage []).events)) :=
  ⟨by decide, pagination_verification_spec 0 0 verifyPage [] ⟨1, 1, 1⟩ (by decide) (by decide)⟩
